import Mathlib

/-!
Verification of the column-dropping migration tool of the Data-Exploration
repository (`scripts/drop_columns.py`).  The script rebuilds a SQLite table
keeping only a whitelist of columns: it creates a shadow table from the kept
columns' catalog descriptors, copies rows in bounded batches keyed by a
batching column, and finally swaps the shadow table in place of the original.

The embedding below mirrors the source function `drop_unused_columns`
(`scripts/drop_columns.py`, lines 43-208) over an explicit state of the
database.  SQLite values are modelled as NULL, integers, reals (exact
rationals stand in for the REAL storage class; the script only adds integers
to and compares batch bounds, which is exact arithmetic) or text; a table is
its catalog rows (`PRAGMA table_info`) together with its data rows.
-/

namespace DropColumns

/-- A SQLite value as seen by the script: NULL, an integer, a REAL (as an
exact rational), or text. -/
inductive Value where
  | null : Value
  | int : Int → Value
  | real : ℚ → Value
  | text : String → Value
deriving DecidableEq, Repr

/-- One row of `PRAGMA table_info(table)` as used by the script:
`row[1]` = name, `row[2]` = declared type, `row[3]` = not-null flag,
`row[4]` = default value, `row[5]` = primary-key flag (the 1-based position
of the column inside the primary key, 0 when not part of it). -/
structure ColumnInfo where
  name : String
  declType : String
  notnull : Nat
  dfltValue : Option String
  pk : Nat
deriving DecidableEq, Repr

/-- A table: its catalog (`PRAGMA table_info`) and its data rows; every data
row is positionally aligned with the catalog. -/
structure Table where
  info : List ColumnInfo
  rows : List (List Value)
deriving DecidableEq, Repr

/-- `get_current_columns` (drop_columns.py:22-25): the column names of the
table, in catalog order. -/
def get_current_columns (t : Table) : List String :=
  t.info.map (fun c => c.name)

/-- drop_columns.py:79 — `[col for col in columns_to_keep if col in current_columns]`. -/
def valid_columns (columns_to_keep current_columns : List String) : List String :=
  columns_to_keep.filter (fun col => decide (col ∈ current_columns))

/-- drop_columns.py:83 — `[col for col in current_columns if col not in columns_to_keep]`. -/
def columns_to_drop (current_columns columns_to_keep : List String) : List String :=
  current_columns.filter (fun col => decide (col ∉ columns_to_keep))

/-- drop_columns.py:99 — `table_info = {row[1]: row for row in cursor.fetchall()}`;
a Python dict keeps the last binding for a repeated key, hence the lookup on
the reversed list. -/
def table_info_lookup (info : List ColumnInfo) (name : String) : Option ColumnInfo :=
  info.reverse.find? (fun r => r.name == name)

/-- drop_columns.py:106 — `"NOT NULL" if row[3] == 1 else ""`. -/
def notNullClause (r : ColumnInfo) : String :=
  if r.notnull = 1 then "NOT NULL" else ""

/-- drop_columns.py:107 — `f"DEFAULT {row[4]}" if row[4] is not None else ""`. -/
def defaultClause (r : ColumnInfo) : String :=
  match r.dfltValue with
  | some v => "DEFAULT " ++ v
  | none => ""

/-- drop_columns.py:108 — `"PRIMARY KEY" if row[5] == 1 else ""`. -/
def pkClause (r : ColumnInfo) : String :=
  if r.pk = 1 then "PRIMARY KEY" else ""

/-- Python's `str.strip()`: whitespace dropped from both ends (written over
the character list so that it evaluates by reduction). -/
def pyStrip (s : String) : String :=
  String.mk (((s.data.dropWhile Char.isWhitespace).reverse.dropWhile Char.isWhitespace).reverse)

/-- drop_columns.py:109 — `f"{col_name} {col_type} {not_null} {default_val} {is_pk}".strip()`. -/
def renderColumnDef (r : ColumnInfo) : String :=
  pyStrip (r.name ++ " " ++ r.declType ++ " " ++ notNullClause r ++ " " ++
    defaultClause r ++ " " ++ pkClause r)

/-- drop_columns.py:101-109 — for each kept column that is in `table_info`,
append its rendered column definition. -/
def column_defs (info : List ColumnInfo) (valid : List String) : List String :=
  valid.filterMap (fun col => (table_info_lookup info col).map renderColumnDef)

/-- drop_columns.py:112-113 — `[row[1] for row in cursor.fetchall() if row[5] > 0]`. -/
def primary_key_cols (info : List ColumnInfo) : List String :=
  (info.filter (fun r => decide (0 < r.pk))).map (fun r => r.name)

/-- drop_columns.py:127 — `primary_key_cols[0] if primary_key_cols and
primary_key_cols[0] in valid_columns else valid_columns[0]`; `none` models the
IndexError on an empty keep set, which the script never reaches because the
shadow-table CREATE fails first. -/
def batch_column (pkCols valid : List String) : Option String :=
  match pkCols with
  | p :: _ => if p ∈ valid then some p else valid.head?
  | [] => valid.head?

/-- Index of a column name in the catalog (how SQLite resolves a name used in
a SELECT or WHERE against this table). -/
def colIndex (info : List ColumnInfo) (name : String) : Option Nat :=
  info.findIdx? (fun r => r.name == name)

/-- The value a data row holds at a named column (NULL when the name does not
resolve; the script only ever uses names validated against the catalog). -/
def rowValue (info : List ColumnInfo) (row : List Value) (name : String) : Value :=
  match colIndex info name with
  | some i => row.getD i Value.null
  | none => Value.null

/-- drop_columns.py:150-154 — `SELECT col1, ..., colN FROM table`: the row
projected onto the kept columns, in keep order. -/
def projectRow (info : List ColumnInfo) (valid : List String) (row : List Value) : List Value :=
  valid.map (fun col => rowValue info row col)

/-- The full column of values the batching column holds, row by row. -/
def columnValues (t : Table) (col : String) : List Value :=
  t.rows.map (fun r => rowValue t.info r col)

/-- Whether a value is SQL NULL. -/
def isNullV : Value → Bool
  | Value.null => true
  | _ => false

/-- SQLite's cross-type ordering on values as relevant here: NULL sorts
first, then the numeric classes (integers and reals compared numerically),
then text. -/
def valueLE : Value → Value → Bool
  | Value.null, _ => true
  | _, Value.null => false
  | Value.int a, Value.int b => decide (a ≤ b)
  | Value.int a, Value.real q => decide ((a : ℚ) ≤ q)
  | Value.real p, Value.int b => decide (p ≤ (b : ℚ))
  | Value.real p, Value.real q => decide (p ≤ q)
  | Value.int _, Value.text _ => true
  | Value.real _, Value.text _ => true
  | Value.text _, Value.int _ => false
  | Value.text _, Value.real _ => false
  | Value.text a, Value.text b => a == b || decide (a < b)

/-- The smaller of two values in SQLite order. -/
def valueMin (a b : Value) : Value :=
  if valueLE a b then a else b

/-- The larger of two values in SQLite order. -/
def valueMax (a b : Value) : Value :=
  if valueLE a b then b else a

/-- `SELECT MIN(col)`: the MIN aggregate ignores NULLs and returns NULL on an
empty set (drop_columns.py:137-138). -/
def sqlMin (vs : List Value) : Value :=
  match vs.filter (fun v => !isNullV v) with
  | [] => Value.null
  | x :: xs => xs.foldl valueMin x

/-- `SELECT MAX(col)`: the MAX aggregate ignores NULLs and returns NULL on an
empty set (drop_columns.py:137-138). -/
def sqlMax (vs : List Value) : Value :=
  match vs.filter (fun v => !isNullV v) with
  | [] => Value.null
  | x :: xs => xs.foldl valueMax x

/-- SQL `v >= lo` against an integer bound: NULL compares to nothing,
numeric values compare numerically, text sorts above every number. -/
def sqlGEInt : Value → Int → Bool
  | Value.null, _ => false
  | Value.int a, i => decide (i ≤ a)
  | Value.real p, i => decide ((i : ℚ) ≤ p)
  | Value.text _, _ => true

/-- SQL `v <= hi` against an integer bound: NULL compares to nothing,
numeric values compare numerically, text sorts above every number. -/
def sqlLEInt : Value → Int → Bool
  | Value.null, _ => false
  | Value.int a, i => decide (a ≤ i)
  | Value.real p, i => decide (p ≤ (i : ℚ))
  | Value.text _, _ => false

/-- SQL `v >= lo` against a rational bound (the batch bounds are rationals
when MIN of the batching column is a REAL). -/
def sqlGEQ : Value → ℚ → Bool
  | Value.null, _ => false
  | Value.int a, q => decide (q ≤ (a : ℚ))
  | Value.real p, q => decide (q ≤ p)
  | Value.text _, _ => true

/-- SQL `v <= hi` against a rational bound. -/
def sqlLEQ : Value → ℚ → Bool
  | Value.null, _ => false
  | Value.int a, q => decide ((a : ℚ) ≤ q)
  | Value.real p, q => decide (p ≤ q)
  | Value.text _, _ => false

/-- drop_columns.py:150-155 — the rows a batch reads:
`WHERE batch_column >= current_min AND batch_column <= current_max`. -/
def batchSelect (t : Table) (col : String) (lo hi : Int) : List (List Value) :=
  t.rows.filter (fun r =>
    sqlGEInt (rowValue t.info r col) lo && sqlLEInt (rowValue t.info r col) hi)

/-- The batch windows the loop at drop_columns.py:143-173 walks through:
starting at `lo`, each window is `[current, current + b - 1]` and the loop
advances by `b` until the lower bound exceeds `mx`. -/
def batchBounds (b : Int) (hb : 0 < b) (lo mx : Int) : List (Int × Int) :=
  if _h : lo ≤ mx then (lo, lo + b - 1) :: batchBounds b hb (lo + b) mx
  else []
termination_by (mx + 1 - lo).toNat
decreasing_by omega

/-- What one batch inserts into the shadow table: the projection onto the
kept columns of every row the batch window selects (drop_columns.py:150-155). -/
def selectBatch (t : Table) (valid : List String) (col : String) (p : Int × Int) :
    List (List Value) :=
  (batchSelect t col p.1 p.2).map (projectRow t.info valid)

/-- All rows the windows `bs` insert, in batch order. -/
def boundsJoin (t : Table) (valid : List String) (col : String) (bs : List (Int × Int)) :
    List (List Value) :=
  (bs.map (selectBatch t valid col)).flatten

/-- The batch-copy loop (drop_columns.py:143-173) with its transaction
boundary made explicit: each iteration begins a transaction, inserts the
window's rows, and commits; `failAt = some k` injects an exception inside the
`k`-th batch's transaction, which is then rolled back (the pending rows are
discarded, the rows committed by earlier batches stay).  Returns the committed
shadow rows, `processed_rows`, and whether the loop completed. -/
def batchLoopTx (t : Table) (valid : List String) (col : String) (b : Int) (hb : 0 < b)
    (failAt : Option Nat) (idx : Nat) (lo mx : Int)
    (committed : List (List Value)) (processed : Nat) :
    List (List Value) × Nat × Bool :=
  if _h : lo ≤ mx then
    let pending := (batchSelect t col lo (lo + b - 1)).map (projectRow t.info valid)
    if failAt = some idx then (committed, processed, false)
    else batchLoopTx t valid col b hb failAt (idx + 1) (lo + b) mx
      (committed ++ pending) (processed + pending.length)
  else (committed, processed, true)
termination_by (mx + 1 - lo).toNat
decreasing_by omega

/-- The rows a batch reads when the bounds are rationals: the same WHERE
clause as `batchSelect`, against rational bounds
(drop_columns.py:150-155). -/
def batchSelectQ (t : Table) (col : String) (lo hi : ℚ) : List (List Value) :=
  t.rows.filter (fun r =>
    sqlGEQ (rowValue t.info r col) lo && sqlLEQ (rowValue t.info r col) hi)

/-- The batch-copy loop (drop_columns.py:143-173) in full generality: the
bounds are rationals, because when MIN of the batching column is a REAL the
Python arithmetic `current_max = current_min + batch_size - 1` and
`current_min = current_max + 1` runs on floats and the loop proceeds with
non-integer bounds.  `batchLoopTx` is this loop's restriction to integer
bounds (`batchLoopTxQ_intCast` below proves they agree there).  Note the
windows advance by `batch_size` from a possibly non-integer start, so a REAL
value in the open unit gap between one window's upper bound and the next
window's lower bound is selected by no batch. -/
def batchLoopTxQ (t : Table) (valid : List String) (col : String) (b : Int) (hb : 0 < b)
    (failAt : Option Nat) (idx : Nat) (lo mx : ℚ)
    (committed : List (List Value)) (processed : Nat) :
    List (List Value) × Nat × Bool :=
  if _h : lo ≤ mx then
    let pending := (batchSelectQ t col lo (lo + (b : ℚ) - 1)).map (projectRow t.info valid)
    if failAt = some idx then (committed, processed, false)
    else batchLoopTxQ t valid col b hb failAt (idx + 1) (lo + (b : ℚ)) mx
      (committed ++ pending) (processed + pending.length)
  else (committed, processed, true)
termination_by (⌈mx + 1 - lo⌉).toNat
decreasing_by
  have h1 : (0 : ℚ) < mx + 1 - lo := by linarith
  have h2 : (0 : ℤ) < ⌈mx + 1 - lo⌉ := Int.ceil_pos.mpr h1
  have h3 : mx + 1 - (lo + (b : ℚ)) = (mx + 1 - lo) + ((-b : ℤ) : ℚ) := by
    push_cast
    ring
  rw [h3, Int.ceil_add_int]
  omega

/-- Where an external exception is injected into the run: never, inside the
shadow-table CREATE, inside the `k`-th batch transaction, or inside the final
drop-and-rename transaction.  `noFail` is the plain run. -/
inductive FailPoint where
  | noFail
  | atCreate
  | atBatch : Nat → FailPoint
  | atSwap
deriving DecidableEq, Repr

/-- The failure kinds of a run (spec §7).  `noKeepColumns` is the failing
`CREATE TABLE` with an empty column list (the resolved keep set was empty),
`duplicateColumn` the failing CREATE with a repeated column name,
`nonNumericBounds` the TypeError on the batch-bound comparison or arithmetic
when MIN or MAX of the batching column is text, `injected` an external
exception. -/
inductive MigrationError where
  | noKeepColumns
  | duplicateColumn
  | nonNumericBounds
  | injected
deriving DecidableEq, Repr

/-- The database as the migration sees it: the table under the original name
and the table under the shadow name `<table>_new`, when they exist. -/
structure DbState where
  orig : Option Table
  shadow : Option Table
deriving DecidableEq, Repr

/-- The observable outcome of a run: final database state, the boolean the
function returns, `processed_rows`, and the failure kind if any. -/
structure RunOutcome where
  db : DbState
  success : Bool
  rowsProcessed : Nat
  err : Option MigrationError
deriving DecidableEq, Repr

/-- drop_columns.py:149-173 interior of the `except` handler view: which batch
index an injected exception hits, if any. -/
def failAtOf : FailPoint → Option Nat
  | FailPoint.atBatch k => some k
  | _ => none

/-- The catalog row the shadow table ends up with for a kept column: name,
type and default carry over; the NOT NULL and PRIMARY KEY markers are
re-created exactly when the rendered definition emitted them
(drop_columns.py:104-109). -/
def shadowColumn (r : ColumnInfo) : ColumnInfo :=
  { name := r.name, declType := r.declType,
    notnull := if r.notnull = 1 then 1 else 0,
    dfltValue := r.dfltValue,
    pk := if r.pk = 1 then 1 else 0 }

/-- The shadow table's catalog: the kept columns, in keep order
(drop_columns.py:120-124). -/
def shadowInfo (info : List ColumnInfo) (valid : List String) : List ColumnInfo :=
  (valid.filterMap (fun col => table_info_lookup info col)).map shadowColumn

/-- The column the loop batches on (drop_columns.py:127), as a total
function; the `IndexError` case of an empty keep set is unreachable because
the shadow-table CREATE fails first. -/
def chosenColumn (t : Table) (valid : List String) : String :=
  (batch_column (primary_key_cols t.info) valid).getD ""

/-- The final transaction (drop_columns.py:177-191) applied to the result of
the copy loop: if the loop was aborted by an exception, or the injected
exception hits the drop-and-rename transaction itself, the transaction rolls
back — the original table stays, the shadow table keeps the committed rows —
and the run reports failure; otherwise the original table is dropped and the
shadow table renamed over it. -/
def swapPhase (t : Table) (valid : List String)
    (res : List (List Value) × Nat × Bool) (fp : FailPoint) : RunOutcome :=
  if res.2.2 = false then
    { db := { orig := some t, shadow := some { info := shadowInfo t.info valid, rows := res.1 } },
      success := false, rowsProcessed := res.2.1, err := some MigrationError.injected }
  else if fp = FailPoint.atSwap then
    { db := { orig := some t, shadow := some { info := shadowInfo t.info valid, rows := res.1 } },
      success := false, rowsProcessed := res.2.1, err := some MigrationError.injected }
  else
    { db := { orig := some { info := shadowInfo t.info valid, rows := res.1 }, shadow := none },
      success := true, rowsProcessed := res.2.1, err := none }

/-- Steps 127-191 of drop_columns.py, after the shadow table has been
created: pick the batching column, read MIN and MAX of it, copy in batches,
then swap.  When MIN or MAX is NULL (empty table) the copy loop is skipped
(drop_columns.py:140) and the swap still runs; when both are numeric
(integers or REALs, in any mix) the loop runs with those bounds, integers
entering as exact rationals; when either is text the Python comparison or
arithmetic on the bounds raises before any row is copied, the in-flight
transaction rolls back, and the run fails with the shadow table created but
empty. -/
def afterCreate (t : Table) (valid : List String) (batch_size : Int)
    (hb : 0 < batch_size) (fp : FailPoint) : RunOutcome :=
  match sqlMin (columnValues t (chosenColumn t valid)),
        sqlMax (columnValues t (chosenColumn t valid)) with
  | Value.int mn, Value.int mx =>
    swapPhase t valid
      (batchLoopTxQ t valid (chosenColumn t valid) batch_size hb (failAtOf fp) 0
        (mn : ℚ) (mx : ℚ) [] 0) fp
  | Value.int mn, Value.real mx =>
    swapPhase t valid
      (batchLoopTxQ t valid (chosenColumn t valid) batch_size hb (failAtOf fp) 0
        (mn : ℚ) mx [] 0) fp
  | Value.real mn, Value.int mx =>
    swapPhase t valid
      (batchLoopTxQ t valid (chosenColumn t valid) batch_size hb (failAtOf fp) 0
        mn (mx : ℚ) [] 0) fp
  | Value.real mn, Value.real mx =>
    swapPhase t valid
      (batchLoopTxQ t valid (chosenColumn t valid) batch_size hb (failAtOf fp) 0
        mn mx [] 0) fp
  | Value.null, _ => swapPhase t valid ([], 0, true) fp
  | _, Value.null => swapPhase t valid ([], 0, true) fp
  | _, _ =>
    { db := { orig := some t, shadow := some { info := shadowInfo t.info valid, rows := [] } },
      success := false, rowsProcessed := 0, err := some MigrationError.nonNumericBounds }

/-- `drop_unused_columns` (drop_columns.py:43-208) on a database holding the
one table the run touches.  Mirrors the source step by step: compute keep and
drop lists; return success untouched when nothing is to drop; create the
shadow table (a CREATE with no columns or a duplicate column name is a SQLite
error, and an injected exception at the CREATE leaves the database untouched);
then run the copy loop and the final swap via `afterCreate`.  Any exception
rolls back only the in-flight transaction and returns failure, leaving
previously committed state in place. -/
def drop_unused_columns (t : Table) (columns_to_keep : List String)
    (batch_size : Int) (hb : 0 < batch_size) (fp : FailPoint) : RunOutcome :=
  if columns_to_drop (get_current_columns t) columns_to_keep = [] then
    { db := { orig := some t, shadow := none },
      success := true, rowsProcessed := 0, err := none }
  else if fp = FailPoint.atCreate then
    { db := { orig := some t, shadow := none },
      success := false, rowsProcessed := 0, err := some MigrationError.injected }
  else if column_defs t.info (valid_columns columns_to_keep (get_current_columns t)) = [] then
    { db := { orig := some t, shadow := none },
      success := false, rowsProcessed := 0, err := some MigrationError.noKeepColumns }
  else if ¬ (valid_columns columns_to_keep (get_current_columns t)).Nodup then
    { db := { orig := some t, shadow := none },
      success := false, rowsProcessed := 0, err := some MigrationError.duplicateColumn }
  else
    afterCreate t (valid_columns columns_to_keep (get_current_columns t)) batch_size hb fp

/-! ## Structural lemmas about the batch windows -/

theorem batchBounds_pos (b : Int) (hb : 0 < b) (lo mx : Int) (h : lo ≤ mx) :
    batchBounds b hb lo mx = (lo, lo + b - 1) :: batchBounds b hb (lo + b) mx := by
  rw [batchBounds]
  simp [h]

theorem batchBounds_neg (b : Int) (hb : 0 < b) (lo mx : Int) (h : ¬ lo ≤ mx) :
    batchBounds b hb lo mx = [] := by
  rw [batchBounds]
  simp [h]

theorem batchBounds_mem (b : Int) (hb : 0 < b) (lo mx : Int) :
    ∀ p ∈ batchBounds b hb lo mx, lo ≤ p.1 ∧ p.2 = p.1 + b - 1 := by
  induction lo, mx using batchBounds.induct b hb with
  | case1 lo mx h ih =>
    intro p hp
    rw [batchBounds_pos b hb lo mx h] at hp
    rcases List.mem_cons.mp hp with hp1 | hp1
    · simp [hp1]
    · have := ih p hp1
      omega
  | case2 lo mx h =>
    intro p hp
    rw [batchBounds_neg b hb lo mx h] at hp
    simp at hp

theorem batchBounds_getElem (b : Int) (hb : 0 < b) (lo mx : Int) :
    ∀ k : Nat, (batchBounds b hb lo mx)[k]? =
      if lo + b * k ≤ mx then some (lo + b * k, lo + b * k + b - 1) else none := by
  induction lo, mx using batchBounds.induct b hb with
  | case1 lo mx h ih =>
    intro k
    rw [batchBounds_pos b hb lo mx h]
    match k with
    | 0 => simp [h]
    | k + 1 =>
      have hcast : lo + b + b * (k : Int) = lo + b * ((k : Nat) + 1 : Nat) := by
        push_cast
        ring
      simp only [List.getElem?_cons_succ]
      rw [ih k, hcast]
  | case2 lo mx h =>
    intro k
    rw [batchBounds_neg b hb lo mx h]
    have hbk : 0 ≤ b * (k : Int) := by positivity
    have hn : ¬ lo + b * (k : Nat) ≤ mx := by omega
    simp [hn]

theorem batchBounds_length_iff (b : Int) (hb : 0 < b) (lo mx : Int) :
    ∀ k : Nat, k < (batchBounds b hb lo mx).length ↔ lo + b * k ≤ mx := by
  intro k
  have h1 := batchBounds_getElem b hb lo mx k
  by_cases hc : lo + b * (k : Int) ≤ mx
  · rw [if_pos hc] at h1
    refine ⟨fun _ => hc, fun _ => ?_⟩
    by_contra hk
    rw [List.getElem?_eq_none_iff.mpr (by omega)] at h1
    simp at h1
  · rw [if_neg hc] at h1
    have h2 := List.getElem?_eq_none_iff.mp h1
    exact ⟨fun hk => absurd hk (by omega), fun hx => absurd hx hc⟩

/-! ## The loop visits every window: committed rows and row counts -/

theorem batchLoopTx_none (t : Table) (valid : List String) (col : String)
    (b : Int) (hb : 0 < b) :
    ∀ (lo mx : Int) (idx : Nat) (committed : List (List Value)) (processed : Nat),
      batchLoopTx t valid col b hb none idx lo mx committed processed =
        (committed ++ boundsJoin t valid col (batchBounds b hb lo mx),
         processed + (boundsJoin t valid col (batchBounds b hb lo mx)).length, true) := by
  intro lo mx
  induction lo, mx using batchBounds.induct b hb with
  | case1 lo mx h ih =>
    intro idx committed processed
    rw [batchLoopTx]
    simp only [h, dif_pos]
    rw [if_neg (by simp)]
    rw [ih]
    rw [batchBounds_pos b hb lo mx h]
    simp only [boundsJoin, selectBatch, List.map_cons, List.flatten_cons,
      List.append_assoc, List.length_append, Prod.mk.injEq, and_true, true_and]
    omega
  | case2 lo mx h =>
    intro idx committed processed
    rw [batchLoopTx]
    simp only [h, dif_neg, not_false_iff]
    rw [batchBounds_neg b hb lo mx h]
    simp [boundsJoin]

theorem batchLoopTx_fail (t : Table) (valid : List String) (col : String)
    (b : Int) (hb : 0 < b) :
    ∀ (j : Nat) (lo mx : Int) (idx : Nat) (committed : List (List Value)) (processed : Nat),
      j < (batchBounds b hb lo mx).length →
      batchLoopTx t valid col b hb (some (idx + j)) idx lo mx committed processed =
        (committed ++ boundsJoin t valid col ((batchBounds b hb lo mx).take j),
         processed + (boundsJoin t valid col ((batchBounds b hb lo mx).take j)).length,
         false) := by
  intro j
  induction j with
  | zero =>
    intro lo mx idx committed processed hlen
    have hlo : lo ≤ mx := by
      have := (batchBounds_length_iff b hb lo mx 0).mp hlen
      simpa using this
    rw [batchLoopTx]
    simp [hlo, boundsJoin]
  | succ j ih =>
    intro lo mx idx committed processed hlen
    have hlo : lo ≤ mx := by
      have h0 : 0 < (batchBounds b hb lo mx).length := by omega
      have := (batchBounds_length_iff b hb lo mx 0).mp h0
      simpa using this
    have hne : ¬ (some (idx + (j + 1)) = some idx) := by
      simp only [Option.some.injEq]
      omega
    rw [batchLoopTx]
    simp only [hlo, dif_pos]
    rw [if_neg hne]
    have harith : idx + (j + 1) = (idx + 1) + j := by omega
    rw [harith]
    have hrest : j < (batchBounds b hb (lo + b) mx).length := by
      rw [batchBounds_pos b hb lo mx hlo] at hlen
      simpa using hlen
    rw [ih (lo + b) mx (idx + 1) _ _ hrest]
    rw [batchBounds_pos b hb lo mx hlo]
    simp only [boundsJoin, selectBatch, List.take_succ_cons, List.map_cons,
      List.flatten_cons, List.append_assoc, List.length_append, Prod.mk.injEq,
      and_true, true_and]
    omega


/-! ## The rational loop restricted to integer bounds is the integer loop -/

theorem sqlGEQ_intCast (v : Value) (i : Int) : sqlGEQ v (i : ℚ) = sqlGEInt v i := by
  cases v with
  | null => rfl
  | int a => simp [sqlGEQ, sqlGEInt, Int.cast_le]
  | real p => rfl
  | text s => rfl

theorem sqlLEQ_intCast (v : Value) (i : Int) : sqlLEQ v (i : ℚ) = sqlLEInt v i := by
  cases v with
  | null => rfl
  | int a => simp [sqlLEQ, sqlLEInt, Int.cast_le]
  | real p => rfl
  | text s => rfl

theorem batchSelectQ_intCast (t : Table) (col : String) (lo hi : Int) :
    batchSelectQ t col (lo : ℚ) (hi : ℚ) = batchSelect t col lo hi := by
  unfold batchSelectQ batchSelect
  apply List.filter_congr
  intro r _
  rw [sqlGEQ_intCast, sqlLEQ_intCast]

theorem batchLoopTxQ_intCast (t : Table) (valid : List String) (col : String)
    (b : Int) (hb : 0 < b) (failAt : Option Nat) :
    ∀ (lo mx : Int) (idx : Nat) (committed : List (List Value)) (processed : Nat),
      batchLoopTxQ t valid col b hb failAt idx (lo : ℚ) (mx : ℚ) committed processed =
        batchLoopTx t valid col b hb failAt idx lo mx committed processed := by
  intro lo mx
  induction lo, mx using batchBounds.induct b hb with
  | case1 lo mx h ih =>
    intro idx committed processed
    have hq : ((lo : ℚ) ≤ (mx : ℚ)) := by exact_mod_cast h
    rw [batchLoopTxQ, batchLoopTx]
    simp only [hq, h, dif_pos]
    have hhi : ((lo : ℚ) + (b : ℚ) - 1) = ((lo + b - 1 : Int) : ℚ) := by push_cast; ring
    have hlo2 : ((lo : ℚ) + (b : ℚ)) = ((lo + b : Int) : ℚ) := by push_cast; ring
    rw [hhi, batchSelectQ_intCast, hlo2, ih]
  | case2 lo mx h =>
    intro idx committed processed
    have hq : ¬ ((lo : ℚ) ≤ (mx : ℚ)) := by exact_mod_cast h
    rw [batchLoopTxQ, batchLoopTx]
    rw [dif_neg hq, dif_neg h]

/-! ## Single-step unfolding of the rational loop -/

theorem batchLoopTxQ_pos_none (t : Table) (valid : List String) (col : String)
    (b : Int) (hb : 0 < b) (idx : Nat) (lo mx : ℚ)
    (committed : List (List Value)) (processed : Nat) (h : lo ≤ mx) :
    batchLoopTxQ t valid col b hb none idx lo mx committed processed =
      batchLoopTxQ t valid col b hb none (idx + 1) (lo + (b : ℚ)) mx
        (committed ++ (batchSelectQ t col lo (lo + (b : ℚ) - 1)).map (projectRow t.info valid))
        (processed +
          ((batchSelectQ t col lo (lo + (b : ℚ) - 1)).map (projectRow t.info valid)).length) := by
  rw [batchLoopTxQ]
  simp only [h, dif_pos]
  rw [if_neg (by simp)]

theorem batchLoopTxQ_neg (t : Table) (valid : List String) (col : String)
    (b : Int) (hb : 0 < b) (failAt : Option Nat) (idx : Nat) (lo mx : ℚ)
    (committed : List (List Value)) (processed : Nat) (h : ¬ lo ≤ mx) :
    batchLoopTxQ t valid col b hb failAt idx lo mx committed processed =
      (committed, processed, true) := by
  rw [batchLoopTxQ]
  rw [dif_neg h]


/-! ## MIN and MAX aggregates bound every integer value of the column -/

theorem foldl_valueMin_null : ∀ xs : List Value, xs.foldl valueMin Value.null = Value.null := by
  intro xs
  induction xs with
  | nil => rfl
  | cons y ys ih =>
    have h : valueMin Value.null y = Value.null := by
      cases y <;> simp [valueMin, valueLE]
    simp only [List.foldl_cons, h, ih]

theorem foldl_valueMax_text : ∀ (xs : List Value) (s : String),
    ∃ sb, xs.foldl valueMax (Value.text s) = Value.text sb := by
  intro xs
  induction xs with
  | nil => exact fun s => ⟨s, rfl⟩
  | cons y ys ih =>
    intro s
    cases y with
    | null =>
      have h : valueMax (Value.text s) Value.null = Value.text s := by
        simp [valueMax, valueLE]
      simp only [List.foldl_cons, h]
      exact ih s
    | int j =>
      have h : valueMax (Value.text s) (Value.int j) = Value.text s := by
        simp [valueMax, valueLE]
      simp only [List.foldl_cons, h]
      exact ih s
    | real q =>
      have h : valueMax (Value.text s) (Value.real q) = Value.text s := by
        simp [valueMax, valueLE]
      simp only [List.foldl_cons, h]
      exact ih s
    | text s2 =>
      simp only [List.foldl_cons, valueMax]
      by_cases hle : valueLE (Value.text s) (Value.text s2) = true
      · simp only [hle, if_pos]
        exact ih s2
      · simp only [Bool.not_eq_true] at hle
        simp only [hle, Bool.false_eq_true, if_false]
        exact ih s

theorem foldl_valueMin_le : ∀ (xs : List Value) (a : Value) (mn : Int),
    xs.foldl valueMin a = Value.int mn →
    (∀ j : Int, a = Value.int j → mn ≤ j) ∧
    (∀ q : ℚ, a = Value.real q → (mn : ℚ) ≤ q) ∧
    (∀ i : Int, Value.int i ∈ xs → mn ≤ i) := by
  intro xs
  induction xs with
  | nil =>
    intro a mn h
    simp only [List.foldl_nil] at h
    refine ⟨?_, ?_, ?_⟩
    · intro j hj
      rw [hj] at h
      rw [Value.int.injEq] at h
      omega
    · intro q hq
      rw [hq] at h
      cases h
    · intro i hi
      simp at hi
  | cons y ys ih =>
    intro a mn h
    simp only [List.foldl_cons] at h
    have ihh := ih (valueMin a y) mn h
    refine ⟨?_, ?_, ?_⟩
    · intro j hj
      subst hj
      cases y with
      | null =>
        have hnull : valueMin (Value.int j) Value.null = Value.null := by
          simp [valueMin, valueLE]
        rw [hnull, foldl_valueMin_null] at h
        cases h
      | int jy =>
        by_cases hc : j ≤ jy
        · have he : valueMin (Value.int j) (Value.int jy) = Value.int j := by
            simp [valueMin, valueLE, hc]
          exact ihh.1 j he
        · have he : valueMin (Value.int j) (Value.int jy) = Value.int jy := by
            simp only [valueMin, valueLE]
            rw [if_neg (by simpa using hc)]
          have h2 := ihh.1 jy he
          omega
      | real qy =>
        by_cases hc : (j : ℚ) ≤ qy
        · have he : valueMin (Value.int j) (Value.real qy) = Value.int j := by
            simp [valueMin, valueLE, hc]
          exact ihh.1 j he
        · have he : valueMin (Value.int j) (Value.real qy) = Value.real qy := by
            simp only [valueMin, valueLE]
            rw [if_neg (by simpa using hc)]
          have h2 := ihh.2.1 qy he
          have h3 : (mn : ℚ) < (j : ℚ) := lt_of_le_of_lt h2 (lt_of_not_le hc)
          exact_mod_cast le_of_lt h3
      | text s =>
        have he : valueMin (Value.int j) (Value.text s) = Value.int j := by
          simp [valueMin, valueLE]
        exact ihh.1 j he
    · intro p hp
      subst hp
      cases y with
      | null =>
        have hnull : valueMin (Value.real p) Value.null = Value.null := by
          simp [valueMin, valueLE]
        rw [hnull, foldl_valueMin_null] at h
        cases h
      | int jy =>
        by_cases hc : p ≤ (jy : ℚ)
        · have he : valueMin (Value.real p) (Value.int jy) = Value.real p := by
            simp [valueMin, valueLE, hc]
          exact ihh.2.1 p he
        · have he : valueMin (Value.real p) (Value.int jy) = Value.int jy := by
            simp only [valueMin, valueLE]
            rw [if_neg (by simpa using hc)]
          have h2 := ihh.1 jy he
          have h3 : (mn : ℚ) ≤ (jy : ℚ) := by exact_mod_cast h2
          exact le_of_lt (lt_of_le_of_lt h3 (lt_of_not_le hc))
      | real qy =>
        by_cases hc : p ≤ qy
        · have he : valueMin (Value.real p) (Value.real qy) = Value.real p := by
            simp [valueMin, valueLE, hc]
          exact ihh.2.1 p he
        · have he : valueMin (Value.real p) (Value.real qy) = Value.real qy := by
            simp only [valueMin, valueLE]
            rw [if_neg (by simpa using hc)]
          have h2 := ihh.2.1 qy he
          exact le_of_lt (lt_of_le_of_lt h2 (lt_of_not_le hc))
      | text s =>
        have he : valueMin (Value.real p) (Value.text s) = Value.real p := by
          simp [valueMin, valueLE]
        exact ihh.2.1 p he
    · intro i hi
      rcases List.mem_cons.mp hi with hy | hys
      · cases a with
        | null =>
          have hnull : valueMin Value.null y = Value.null := by
            cases y <;> simp [valueMin, valueLE]
          rw [hnull, foldl_valueMin_null] at h
          cases h
        | int ja =>
          rw [← hy] at ihh
          by_cases hc : ja ≤ i
          · have he : valueMin (Value.int ja) (Value.int i) = Value.int ja := by
              simp [valueMin, valueLE, hc]
            have h2 := ihh.1 ja he
            omega
          · have he : valueMin (Value.int ja) (Value.int i) = Value.int i := by
              simp only [valueMin, valueLE]
              rw [if_neg (by simpa using hc)]
            exact ihh.1 i he
        | real pa =>
          rw [← hy] at ihh
          by_cases hc : pa ≤ (i : ℚ)
          · have he : valueMin (Value.real pa) (Value.int i) = Value.real pa := by
              simp [valueMin, valueLE, hc]
            have h2 := ihh.2.1 pa he
            have h3 : (mn : ℚ) ≤ (i : ℚ) := le_trans h2 hc
            exact_mod_cast h3
          · have he : valueMin (Value.real pa) (Value.int i) = Value.int i := by
              simp only [valueMin, valueLE]
              rw [if_neg (by simpa using hc)]
            exact ihh.1 i he
        | text sa =>
          rw [← hy] at ihh
          have he : valueMin (Value.text sa) (Value.int i) = Value.int i := by
            simp [valueMin, valueLE]
          exact ihh.1 i he
      · exact ihh.2.2 i hys

theorem foldl_valueMax_ge : ∀ (xs : List Value) (a : Value) (mx : Int),
    xs.foldl valueMax a = Value.int mx →
    (∀ j : Int, a = Value.int j → j ≤ mx) ∧
    (∀ q : ℚ, a = Value.real q → q ≤ (mx : ℚ)) ∧
    (∀ i : Int, Value.int i ∈ xs → i ≤ mx) := by
  intro xs
  induction xs with
  | nil =>
    intro a mx h
    simp only [List.foldl_nil] at h
    refine ⟨?_, ?_, ?_⟩
    · intro j hj
      rw [hj] at h
      rw [Value.int.injEq] at h
      omega
    · intro q hq
      rw [hq] at h
      cases h
    · intro i hi
      simp at hi
  | cons y ys ih =>
    intro a mx h
    simp only [List.foldl_cons] at h
    have ihh := ih (valueMax a y) mx h
    refine ⟨?_, ?_, ?_⟩
    · intro j hj
      subst hj
      cases y with
      | null =>
        have he : valueMax (Value.int j) Value.null = Value.int j := by
          simp [valueMax, valueLE]
        exact ihh.1 j he
      | int jy =>
        by_cases hc : j ≤ jy
        · have he : valueMax (Value.int j) (Value.int jy) = Value.int jy := by
            simp [valueMax, valueLE, hc]
          have h2 := ihh.1 jy he
          omega
        · have he : valueMax (Value.int j) (Value.int jy) = Value.int j := by
            simp only [valueMax, valueLE]
            rw [if_neg (by simpa using hc)]
          exact ihh.1 j he
      | real qy =>
        by_cases hc : (j : ℚ) ≤ qy
        · have he : valueMax (Value.int j) (Value.real qy) = Value.real qy := by
            simp [valueMax, valueLE, hc]
          have h2 := ihh.2.1 qy he
          have h3 : (j : ℚ) ≤ (mx : ℚ) := le_trans hc h2
          exact_mod_cast h3
        · have he : valueMax (Value.int j) (Value.real qy) = Value.int j := by
            simp only [valueMax, valueLE]
            rw [if_neg (by simpa using hc)]
          exact ihh.1 j he
      | text s =>
        have he : valueMax (Value.int j) (Value.text s) = Value.text s := by
          simp [valueMax, valueLE]
        rw [he] at h
        rcases foldl_valueMax_text ys s with ⟨sb, hsb⟩
        rw [hsb] at h
        cases h
    · intro p hp
      subst hp
      cases y with
      | null =>
        have he : valueMax (Value.real p) Value.null = Value.real p := by
          simp [valueMax, valueLE]
        exact ihh.2.1 p he
      | int jy =>
        by_cases hc : p ≤ (jy : ℚ)
        · have he : valueMax (Value.real p) (Value.int jy) = Value.int jy := by
            simp [valueMax, valueLE, hc]
          have h2 := ihh.1 jy he
          have h3 : (jy : ℚ) ≤ (mx : ℚ) := by exact_mod_cast h2
          exact le_trans hc h3
        · have he : valueMax (Value.real p) (Value.int jy) = Value.real p := by
            simp only [valueMax, valueLE]
            rw [if_neg (by simpa using hc)]
          exact ihh.2.1 p he
      | real qy =>
        by_cases hc : p ≤ qy
        · have he : valueMax (Value.real p) (Value.real qy) = Value.real qy := by
            simp [valueMax, valueLE, hc]
          exact le_trans hc (ihh.2.1 qy he)
        · have he : valueMax (Value.real p) (Value.real qy) = Value.real p := by
            simp only [valueMax, valueLE]
            rw [if_neg (by simpa using hc)]
          exact ihh.2.1 p he
      | text s =>
        have he : valueMax (Value.real p) (Value.text s) = Value.text s := by
          simp [valueMax, valueLE]
        rw [he] at h
        rcases foldl_valueMax_text ys s with ⟨sb, hsb⟩
        rw [hsb] at h
        cases h
    · intro i hi
      rcases List.mem_cons.mp hi with hy | hys
      · cases a with
        | null =>
          rw [← hy] at ihh
          have he : valueMax Value.null (Value.int i) = Value.int i := by
            simp [valueMax, valueLE]
          exact ihh.1 i he
        | int ja =>
          rw [← hy] at ihh
          by_cases hc : ja ≤ i
          · have he : valueMax (Value.int ja) (Value.int i) = Value.int i := by
              simp [valueMax, valueLE, hc]
            exact ihh.1 i he
          · have he : valueMax (Value.int ja) (Value.int i) = Value.int ja := by
              simp only [valueMax, valueLE]
              rw [if_neg (by simpa using hc)]
            have h2 := ihh.1 ja he
            omega
        | real pa =>
          rw [← hy] at ihh
          by_cases hc : pa ≤ (i : ℚ)
          · have he : valueMax (Value.real pa) (Value.int i) = Value.int i := by
              simp [valueMax, valueLE, hc]
            exact ihh.1 i he
          · have he : valueMax (Value.real pa) (Value.int i) = Value.real pa := by
              simp only [valueMax, valueLE]
              rw [if_neg (by simpa using hc)]
            have h2 := ihh.2.1 pa he
            have h3 : (i : ℚ) ≤ (mx : ℚ) := le_trans (le_of_lt (lt_of_not_le hc)) h2
            exact_mod_cast h3
        | text sa =>
          rw [← hy] at h
          have he : valueMax (Value.text sa) (Value.int i) = Value.text sa := by
            simp [valueMax, valueLE]
          rw [he] at h
          rcases foldl_valueMax_text ys sa with ⟨sb, hsb⟩
          rw [hsb] at h
          cases h
      · exact ihh.2.2 i hys

theorem sqlMin_le (vs : List Value) (mn : Int) (h : sqlMin vs = Value.int mn) :
    ∀ i : Int, Value.int i ∈ vs → mn ≤ i := by
  intro i hi
  unfold sqlMin at h
  have hmem : Value.int i ∈ vs.filter (fun v => !isNullV v) :=
    List.mem_filter.mpr ⟨hi, by simp [isNullV]⟩
  rcases hnn : vs.filter (fun v => !isNullV v) with _ | ⟨x, xs⟩
  · rw [hnn] at hmem
    simp at hmem
  · rw [hnn] at h hmem
    simp only at h
    rcases List.mem_cons.mp hmem with hx | hxs
    · exact (foldl_valueMin_le xs x mn h).1 i hx.symm
    · exact (foldl_valueMin_le xs x mn h).2.2 i hxs

theorem sqlMax_ge (vs : List Value) (mx : Int) (h : sqlMax vs = Value.int mx) :
    ∀ i : Int, Value.int i ∈ vs → i ≤ mx := by
  intro i hi
  unfold sqlMax at h
  have hmem : Value.int i ∈ vs.filter (fun v => !isNullV v) :=
    List.mem_filter.mpr ⟨hi, by simp [isNullV]⟩
  rcases hnn : vs.filter (fun v => !isNullV v) with _ | ⟨x, xs⟩
  · rw [hnn] at hmem
    simp at hmem
  · rw [hnn] at h hmem
    simp only at h
    rcases List.mem_cons.mp hmem with hx | hxs
    · exact (foldl_valueMax_ge xs x mx h).1 i hx.symm
    · exact (foldl_valueMax_ge xs x mx h).2.2 i hxs

theorem values_int_bounded (vs : List Value) (mn mx : Int)
    (hall : ∀ v ∈ vs, v = Value.null ∨ ∃ i : Int, v = Value.int i)
    (hmn : sqlMin vs = Value.int mn) (hmx : sqlMax vs = Value.int mx) :
    ∀ v ∈ vs, v = Value.null ∨ ∃ i : Int, v = Value.int i ∧ mn ≤ i ∧ i ≤ mx := by
  intro v hv
  rcases hall v hv with h | ⟨i, hi⟩
  · exact Or.inl h
  · subst hi
    exact Or.inr ⟨i, rfl, sqlMin_le vs mn hmn i hv, sqlMax_ge vs mx hmx i hv⟩

theorem foldl_valueMin_int_closed : ∀ (xs : List Value) (a : Value),
    (∀ v ∈ xs, ∃ i : Int, v = Value.int i) → (∃ j : Int, a = Value.int j) →
    ∃ m : Int, xs.foldl valueMin a = Value.int m := by
  intro xs
  induction xs with
  | nil =>
    intro a _ ha
    simpa using ha
  | cons y ys ih =>
    intro a hall ha
    rcases hall y (List.mem_cons_self y ys) with ⟨iy, hiy⟩
    rcases ha with ⟨j, hj⟩
    subst hiy hj
    simp only [List.foldl_cons]
    refine ih _ (fun v hv => hall v (List.mem_cons_of_mem _ hv)) ?_
    unfold valueMin
    by_cases hc : valueLE (Value.int j) (Value.int iy) = true
    · rw [if_pos hc]
      exact ⟨j, rfl⟩
    · rw [if_neg hc]
      exact ⟨iy, rfl⟩

theorem foldl_valueMax_int_closed : ∀ (xs : List Value) (a : Value),
    (∀ v ∈ xs, ∃ i : Int, v = Value.int i) → (∃ j : Int, a = Value.int j) →
    ∃ m : Int, xs.foldl valueMax a = Value.int m := by
  intro xs
  induction xs with
  | nil =>
    intro a _ ha
    simpa using ha
  | cons y ys ih =>
    intro a hall ha
    rcases hall y (List.mem_cons_self y ys) with ⟨iy, hiy⟩
    rcases ha with ⟨j, hj⟩
    subst hiy hj
    simp only [List.foldl_cons]
    refine ih _ (fun v hv => hall v (List.mem_cons_of_mem _ hv)) ?_
    unfold valueMax
    by_cases hc : valueLE (Value.int j) (Value.int iy) = true
    · rw [if_pos hc]
      exact ⟨iy, rfl⟩
    · rw [if_neg hc]
      exact ⟨j, rfl⟩

theorem sqlMin_int_or_null (vs : List Value)
    (hall : ∀ v ∈ vs, v = Value.null ∨ ∃ i : Int, v = Value.int i) :
    sqlMin vs = Value.null ∨ ∃ mn : Int, sqlMin vs = Value.int mn := by
  unfold sqlMin
  rcases hnn : vs.filter (fun v => !isNullV v) with _ | ⟨x, xs⟩
  · exact Or.inl rfl
  · refine Or.inr ?_
    have hsub : ∀ v ∈ x :: xs, ∃ i : Int, v = Value.int i := by
      intro v hv
      have hv2 : v ∈ vs.filter (fun v => !isNullV v) := by
        rw [hnn]
        exact hv
      rw [List.mem_filter] at hv2
      rcases hall v hv2.1 with hnull | hint
      · rw [hnull] at hv2
        simp [isNullV] at hv2
      · exact hint
    exact foldl_valueMin_int_closed xs x
      (fun v hv => hsub v (List.mem_cons_of_mem x hv))
      (hsub x (List.mem_cons_self x xs))

theorem sqlMax_int_or_null (vs : List Value)
    (hall : ∀ v ∈ vs, v = Value.null ∨ ∃ i : Int, v = Value.int i) :
    sqlMax vs = Value.null ∨ ∃ mx : Int, sqlMax vs = Value.int mx := by
  unfold sqlMax
  rcases hnn : vs.filter (fun v => !isNullV v) with _ | ⟨x, xs⟩
  · exact Or.inl rfl
  · refine Or.inr ?_
    have hsub : ∀ v ∈ x :: xs, ∃ i : Int, v = Value.int i := by
      intro v hv
      have hv2 : v ∈ vs.filter (fun v => !isNullV v) := by
        rw [hnn]
        exact hv
      rw [List.mem_filter] at hv2
      rcases hall v hv2.1 with hnull | hint
      · rw [hnull] at hv2
        simp [isNullV] at hv2
      · exact hint
    exact foldl_valueMax_int_closed xs x
      (fun v hv => hsub v (List.mem_cons_of_mem x hv))
      (hsub x (List.mem_cons_self x xs))


/-! ## The batch windows partition the integer values: the permutation core -/

theorem perm_core {α : Type} (f : α → Value) (b : Int) (hb : 0 < b) :
    ∀ (lo mx : Int) (rows : List α),
      (∀ r ∈ rows, f r = Value.null ∨ ∃ i : Int, f r = Value.int i ∧ lo ≤ i ∧ i ≤ mx) →
      List.Perm
        (((batchBounds b hb lo mx).map
          (fun p => rows.filter (fun r => sqlGEInt (f r) p.1 && sqlLEInt (f r) p.2))).flatten)
        (rows.filter (fun r => !isNullV (f r))) := by
  intro lo mx
  induction lo, mx using batchBounds.induct b hb with
  | case2 lo mx h =>
    intro rows hrows
    rw [batchBounds_neg b hb lo mx h]
    have hnil : rows.filter (fun r => !isNullV (f r)) = [] := by
      rw [List.filter_eq_nil_iff]
      intro a ha
      rcases hrows a ha with hnull | ⟨i, hi, hlo2, hhi⟩
      · simp [hnull, isNullV]
      · omega
    rw [hnil]
    simp
  | case1 lo mx h ih =>
    intro rows hrows
    rw [batchBounds_pos b hb lo mx h]
    simp only [List.map_cons, List.flatten_cons]
    have hQimp : ∀ r ∈ rows, sqlGEInt (f r) (lo + b) = true → (!isNullV (f r)) = true := by
      intro r hr hq
      rcases hrows r hr with hnull | ⟨i, hi, hlo2, hhi⟩
      · rw [hnull] at hq
        simp [sqlGEInt] at hq
      · simp [hi, isNullV]
    -- Step A and B: later windows select the same rows from `rows` and from
    -- `rows.filter Q` where Q = (value ≥ lo + b)
    have hmapeq :
        (batchBounds b hb (lo + b) mx).map
            (fun p => rows.filter (fun r => sqlGEInt (f r) p.1 && sqlLEInt (f r) p.2)) =
          (batchBounds b hb (lo + b) mx).map
            (fun p => (rows.filter (fun r => sqlGEInt (f r) (lo + b))).filter
              (fun r => sqlGEInt (f r) p.1 && sqlLEInt (f r) p.2)) := by
      apply List.map_congr_left
      intro p hp
      have hp1 := (batchBounds_mem b hb (lo + b) mx p hp).1
      rw [List.filter_filter]
      apply List.filter_congr
      intro r hr
      cases hs : (sqlGEInt (f r) p.1 && sqlLEInt (f r) p.2) with
      | false => simp
      | true =>
        have hq : sqlGEInt (f r) (lo + b) = true := by
          rcases hrows r hr with hnull | ⟨i, hi, hlo2, hhi⟩
          · rw [hnull] at hs
            simp [sqlGEInt] at hs
          · rw [hi] at hs ⊢
            simp only [sqlGEInt, sqlLEInt, Bool.and_eq_true, decide_eq_true_eq] at hs
            simp only [sqlGEInt, decide_eq_true_eq]
            omega
        simp [hq]
    rw [hmapeq]
    -- Step C: induction hypothesis on the filtered rows
    have hih := ih (rows.filter (fun r => sqlGEInt (f r) (lo + b))) (by
      intro r hr
      rw [List.mem_filter] at hr
      rcases hrows r hr.1 with hnull | ⟨i, hi, hlo2, hhi⟩
      · rw [hnull] at hr
        simp [sqlGEInt] at hr
      · refine Or.inr ⟨i, hi, ?_, hhi⟩
        have := hr.2
        rw [hi] at this
        simp only [sqlGEInt, decide_eq_true_eq] at this
        exact this)
    have hQself :
        (rows.filter (fun r => sqlGEInt (f r) (lo + b))).filter (fun r => !isNullV (f r)) =
          rows.filter (fun r => sqlGEInt (f r) (lo + b)) := by
      rw [List.filter_eq_self]
      intro r hr
      rw [List.mem_filter] at hr
      exact hQimp r hr.1 hr.2
    rw [hQself] at hih
    -- Step D: the head window selects exactly the non-null rows below lo + b
    have hhead : rows.filter (fun r => sqlGEInt (f r) lo && sqlLEInt (f r) (lo + b - 1)) =
        rows.filter (fun r => !(sqlGEInt (f r) (lo + b)) && !isNullV (f r)) := by
      apply List.filter_congr
      intro r hr
      rcases hrows r hr with hnull | ⟨i, hi, hlo2, hhi⟩
      · rw [hnull]
        simp [sqlGEInt, sqlLEInt, isNullV]
      · rw [hi]
        simp only [sqlGEInt, sqlLEInt, isNullV, Bool.and_eq_true, decide_eq_true_eq,
          Bool.not_eq_true]
        by_cases hcase : i ≤ lo + b - 1
        · have h1 : decide (lo ≤ i) = true := by simp; omega
          have h2 : decide (i ≤ lo + b - 1) = true := by simp; omega
          have h3 : decide (lo + b ≤ i) = false := by simp; omega
          simp [h1, h2, h3]
        · have h2 : decide (i ≤ lo + b - 1) = false := by simp; omega
          have h3 : decide (lo + b ≤ i) = true := by simp; omega
          simp [h2, h3]
    -- Step E: assemble
    have hsplit := List.filter_append_perm
      (fun r => !(sqlGEInt (f r) (lo + b))) (rows.filter (fun r => !isNullV (f r)))
    rw [List.filter_filter, List.filter_filter] at hsplit
    have hnotnot : rows.filter (fun a => !!(sqlGEInt (f a) (lo + b)) && !isNullV (f a)) =
        rows.filter (fun r => sqlGEInt (f r) (lo + b)) := by
      apply List.filter_congr
      intro r hr
      cases hq : sqlGEInt (f r) (lo + b) with
      | false => simp
      | true => simp [hQimp r hr hq]
    rw [hnotnot] at hsplit
    refine List.Perm.trans (List.Perm.append_left _ hih) ?_
    rw [hhead]
    exact hsplit


/-! ## Corollaries at the level of the whole copy loop -/

theorem batchLoop_perm (t : Table) (valid : List String) (col : String)
    (b : Int) (hb : 0 < b) (mn mx : Int)
    (hval : ∀ r ∈ t.rows, rowValue t.info r col = Value.null ∨
      ∃ i : Int, rowValue t.info r col = Value.int i)
    (hmn : sqlMin (columnValues t col) = Value.int mn)
    (hmx : sqlMax (columnValues t col) = Value.int mx) :
    List.Perm (batchLoopTx t valid col b hb none 0 mn mx [] 0).1
        ((t.rows.filter (fun r => !isNullV (rowValue t.info r col))).map
          (projectRow t.info valid)) ∧
      (batchLoopTx t valid col b hb none 0 mn mx [] 0).2.1 =
        (t.rows.filter (fun r => !isNullV (rowValue t.info r col))).length ∧
      (batchLoopTx t valid col b hb none 0 mn mx [] 0).2.2 = true := by
  have hall : ∀ v ∈ columnValues t col, v = Value.null ∨ ∃ i : Int, v = Value.int i := by
    intro v hv
    unfold columnValues at hv
    rcases List.mem_map.mp hv with ⟨r2, hr2, hveq⟩
    subst hveq
    exact hval r2 hr2
  have hrows : ∀ r ∈ t.rows, rowValue t.info r col = Value.null ∨
      ∃ i : Int, rowValue t.info r col = Value.int i ∧ mn ≤ i ∧ i ≤ mx := by
    intro r hr
    refine values_int_bounded (columnValues t col) mn mx hall hmn hmx _ ?_
    unfold columnValues
    exact List.mem_map_of_mem _ hr
  have hperm := perm_core (fun r => rowValue t.info r col) b hb mn mx t.rows hrows
  have hbj : boundsJoin t valid col (batchBounds b hb mn mx) =
      (((batchBounds b hb mn mx).map
        (fun p => t.rows.filter (fun r => sqlGEInt (rowValue t.info r col) p.1 &&
          sqlLEInt (rowValue t.info r col) p.2))).flatten).map (projectRow t.info valid) := by
    unfold boundsJoin selectBatch batchSelect
    rw [List.map_flatten, List.map_map]
    rfl
  rw [batchLoopTx_none t valid col b hb mn mx 0 [] 0]
  refine ⟨?_, ?_, rfl⟩
  · simp only [List.nil_append]
    rw [hbj]
    exact hperm.map _
  · simp only [Nat.zero_add]
    rw [hbj, List.length_map, hperm.length_eq]

theorem batchBounds_unique_window (b : Int) (hb : 0 < b) (v : Int) :
    ∀ lo mx : Int, lo ≤ v → v ≤ mx →
      ∃! p : Int × Int, p ∈ batchBounds b hb lo mx ∧ p.1 ≤ v ∧ v ≤ p.2 := by
  intro lo mx
  induction lo, mx using batchBounds.induct b hb with
  | case1 lo mx h ih =>
    intro h1 h2
    by_cases hv : v ≤ lo + b - 1
    · refine ⟨(lo, lo + b - 1), ⟨?_, h1, hv⟩, ?_⟩
      · rw [batchBounds_pos b hb lo mx h]
        exact List.mem_cons_self _ _
      · rintro q ⟨hqmem, hq1, hq2⟩
        rw [batchBounds_pos b hb lo mx h] at hqmem
        rcases List.mem_cons.mp hqmem with he | hrest
        · exact he
        · have hq := batchBounds_mem b hb (lo + b) mx q hrest
          exact absurd hq1 (by omega)
    · have h1b : lo + b ≤ v := by omega
      rcases ih h1b h2 with ⟨p, ⟨hpmem, hp1, hp2⟩, huniq⟩
      refine ⟨p, ⟨?_, hp1, hp2⟩, ?_⟩
      · rw [batchBounds_pos b hb lo mx h]
        exact List.mem_cons_of_mem _ hpmem
      · rintro q ⟨hqmem, hq1, hq2⟩
        rw [batchBounds_pos b hb lo mx h] at hqmem
        rcases List.mem_cons.mp hqmem with he | hrest
        · rw [he] at hq2
          simp only at hq2
          exact absurd hq2 hv
        · exact huniq q ⟨hrest, hq1, hq2⟩
  | case2 lo mx h =>
    intro h1 h2
    exact absurd h2 (by omega)

/-! ## The shadow table carries exactly the kept column names, in keep order -/

theorem table_info_lookup_of_mem (info : List ColumnInfo) (c : String)
    (h : c ∈ info.map (fun r => r.name)) :
    ∃ r, table_info_lookup info c = some r ∧ r.name = c := by
  unfold table_info_lookup
  have hsome : (info.reverse.find? (fun x => x.name == c)).isSome := by
    rw [List.find?_isSome]
    rcases List.mem_map.mp h with ⟨r, hr, hname⟩
    exact ⟨r, List.mem_reverse.mpr hr, by simp [hname]⟩
  rcases Option.isSome_iff_exists.mp hsome with ⟨r2, hr2⟩
  exact ⟨r2, hr2, by simpa using List.find?_some hr2⟩

theorem shadowInfo_names (info : List ColumnInfo) :
    ∀ valid : List String, (∀ c ∈ valid, c ∈ info.map (fun r => r.name)) →
      (shadowInfo info valid).map (fun r => r.name) = valid := by
  intro valid
  induction valid with
  | nil => intro _; rfl
  | cons c cs ih =>
    intro hsub
    rcases table_info_lookup_of_mem info c (hsub c (List.mem_cons_self c cs)) with ⟨r, hr, hname⟩
    unfold shadowInfo
    simp only [List.filterMap_cons, hr, List.map_cons]
    have ihr := ih (fun x hx => hsub x (List.mem_cons_of_mem c hx))
    unfold shadowInfo at ihr
    rw [ihr]
    simp [shadowColumn, hname]

theorem valid_columns_sub (columns_to_keep current_columns : List String) :
    ∀ c ∈ valid_columns columns_to_keep current_columns, c ∈ current_columns := by
  intro c hc
  unfold valid_columns at hc
  rw [List.mem_filter] at hc
  simpa using hc.2


/-! ## Claim theorems -/

/-- C6: for every list of current columns and every requested keep-list, the
computed keep set is the intersection of the current columns with the
requested keep-list (requested names absent from the table are silently
dropped by the filter, not an error), the computed drop set is the current
columns minus that keep set, and the two are disjoint. -/
theorem C6_keepset_dropset_reconciliation (current_columns columns_to_keep : List String) :
    (∀ c : String, c ∈ valid_columns columns_to_keep current_columns ↔
        c ∈ current_columns ∧ c ∈ columns_to_keep) ∧
    (∀ c : String, c ∈ columns_to_drop current_columns columns_to_keep ↔
        c ∈ current_columns ∧ c ∉ valid_columns columns_to_keep current_columns) ∧
    (∀ c : String, ¬ (c ∈ valid_columns columns_to_keep current_columns ∧
        c ∈ columns_to_drop current_columns columns_to_keep)) := by
  refine ⟨?_, ?_, ?_⟩ <;> intro c <;>
    simp only [valid_columns, columns_to_drop, List.mem_filter, decide_eq_true_eq] <;>
    tauto

/-- C7: when the resolved keep set is empty after filtering against the
existing columns while the drop set is non-empty, the run fails with the
no-keep-columns configuration error (the shadow-table CREATE with an empty
column list), no table is created under the shadow name, and the original
table is untouched. -/
theorem C7_empty_keepset_is_fatal (t : Table) (columns_to_keep : List String)
    (b : Int) (hb : 0 < b)
    (hvalid : valid_columns columns_to_keep (get_current_columns t) = [])
    (hdrop : columns_to_drop (get_current_columns t) columns_to_keep ≠ []) :
    drop_unused_columns t columns_to_keep b hb FailPoint.noFail =
      { db := { orig := some t, shadow := none }, success := false,
        rowsProcessed := 0, err := some MigrationError.noKeepColumns } := by
  unfold drop_unused_columns
  rw [if_neg hdrop]
  rw [if_neg (by simp : ¬ (FailPoint.noFail = FailPoint.atCreate))]
  rw [hvalid]
  rw [if_pos (show column_defs t.info [] = [] from rfl)]

/-- C5: for every pair of integer bounds and every batch size at least 1 the
batch loop terminates; the window at index `k` starts exactly at
`lo + batchSize * k` (the lower bound advances by `batchSize` each
iteration), there is a window at index `k` exactly while that start does not
exceed the upper bound, and on any table whatsoever the loop visits every
window and finishes with success — a window that selects fewer rows than the
batch size, or none at all, neither stops the loop early nor is an error. -/
theorem C5_batch_loop_terminates (b : Int) (hb : 0 < b) (lo mx : Int) :
    (∀ k : Nat, (batchBounds b hb lo mx)[k]? =
      (if lo + b * k ≤ mx then some (lo + b * k, lo + b * k + b - 1) else none)) ∧
    (∀ k : Nat, k < (batchBounds b hb lo mx).length ↔ lo + b * k ≤ mx) ∧
    (∀ (t : Table) (valid : List String) (col : String),
      batchLoopTx t valid col b hb none 0 lo mx [] 0 =
        (boundsJoin t valid col (batchBounds b hb lo mx),
         (boundsJoin t valid col (batchBounds b hb lo mx)).length, true)) := by
  refine ⟨batchBounds_getElem b hb lo mx, batchBounds_length_iff b hb lo mx, ?_⟩
  intro t valid col
  rw [batchLoopTx_none]
  simp

/-- C2: on a table whose batching column holds an integer in every row, with
the loop bounds taken from MIN and MAX of that column, the batch loop inserts
the projection of every row exactly once (the committed shadow rows are a
permutation of the projections of all rows), the reported rows processed
equals the table's row count, and every value between the bounds falls in
exactly one batch window. -/
theorem C2_every_row_copied_exactly_once (t : Table) (valid : List String) (col : String)
    (b : Int) (hb : 0 < b) (mn mx : Int)
    (hint : ∀ r ∈ t.rows, ∃ i : Int, rowValue t.info r col = Value.int i)
    (hmn : sqlMin (columnValues t col) = Value.int mn)
    (hmx : sqlMax (columnValues t col) = Value.int mx) :
    List.Perm (batchLoopTx t valid col b hb none 0 mn mx [] 0).1
        (t.rows.map (projectRow t.info valid)) ∧
    (batchLoopTx t valid col b hb none 0 mn mx [] 0).2.1 = t.rows.length ∧
    (∀ v : Int, mn ≤ v → v ≤ mx →
      ∃! p : Int × Int, p ∈ batchBounds b hb mn mx ∧ p.1 ≤ v ∧ v ≤ p.2) := by
  have hfilter : t.rows.filter (fun r => !isNullV (rowValue t.info r col)) = t.rows := by
    rw [List.filter_eq_self]
    intro r hr
    rcases hint r hr with ⟨i, hi⟩
    simp [hi, isNullV]
  have h := batchLoop_perm t valid col b hb mn mx
    (fun r hr => Or.inr (hint r hr)) hmn hmx
  rw [hfilter] at h
  exact ⟨h.1, h.2.1, fun v h1 h2 => batchBounds_unique_window b hb v mn mx h1 h2⟩

/-- C10: a row whose batching-column value is NULL is selected by no batch
window (the WHERE clause compares the value against both bounds and NULL
fails both comparisons), so on a table whose batching column holds only
NULLs and integers the batch loop copies exactly the rows with a non-NULL
batching value — the NULL rows are missing from the committed shadow rows
and from the processed count, even though nothing else goes wrong. -/
theorem C10_null_batch_rows_are_lost (t : Table) (valid : List String) (col : String) :
    (∀ (lo hi : Int) (r : List Value), rowValue t.info r col = Value.null →
      r ∉ batchSelect t col lo hi) ∧
    (∀ (b : Int) (hb : 0 < b) (mn mx : Int),
      (∀ r ∈ t.rows, rowValue t.info r col = Value.null ∨
        ∃ i : Int, rowValue t.info r col = Value.int i) →
      sqlMin (columnValues t col) = Value.int mn →
      sqlMax (columnValues t col) = Value.int mx →
      List.Perm (batchLoopTx t valid col b hb none 0 mn mx [] 0).1
          ((t.rows.filter (fun r => !isNullV (rowValue t.info r col))).map
            (projectRow t.info valid)) ∧
      (batchLoopTx t valid col b hb none 0 mn mx [] 0).2.1 +
          (t.rows.filter (fun r => isNullV (rowValue t.info r col))).length =
        t.rows.length) := by
  constructor
  · intro lo hi r hnull hmem
    unfold batchSelect at hmem
    rw [List.mem_filter, hnull] at hmem
    simp [sqlGEInt] at hmem
  · intro b hb mn mx hval hmn hmx
    have h := batchLoop_perm t valid col b hb mn mx hval hmn hmx
    refine ⟨h.1, ?_⟩
    rw [h.2.1]
    have hsplit := (List.filter_append_perm
      (fun r => !isNullV (rowValue t.info r col)) t.rows).length_eq
    simp only [List.length_append] at hsplit
    have hcong : t.rows.filter (fun r => !!isNullV (rowValue t.info r col)) =
        t.rows.filter (fun r => isNullV (rowValue t.info r col)) := by
      apply List.filter_congr
      intro r hr
      simp
    rw [hcong] at hsplit
    exact hsplit


/-! ## Shape of a successful run -/

theorem swapPhase_success_shape (t : Table) (valid : List String)
    (res : List (List Value) × Nat × Bool) (fp : FailPoint)
    (h : (swapPhase t valid res fp).success = true) :
    swapPhase t valid res fp =
      { db := { orig := some { info := shadowInfo t.info valid, rows := res.1 }, shadow := none },
        success := true, rowsProcessed := res.2.1, err := none } := by
  unfold swapPhase at h ⊢
  split_ifs at h ⊢
  rfl

theorem afterCreate_success_shape (t : Table) (valid : List String) (b : Int) (hb : 0 < b)
    (fp : FailPoint) (h : (afterCreate t valid b hb fp).success = true) :
    ∃ (rows : List (List Value)) (n : Nat),
      afterCreate t valid b hb fp =
        { db := { orig := some { info := shadowInfo t.info valid, rows := rows },
                  shadow := none },
          success := true, rowsProcessed := n, err := none } := by
  unfold afterCreate at h ⊢
  revert h
  rcases hmin : sqlMin (columnValues t (chosenColumn t valid)) with _ | mn | p | s1 <;>
    rcases hmax : sqlMax (columnValues t (chosenColumn t valid)) with _ | mx | q | s2 <;>
    intro h
  · exact ⟨[], 0, swapPhase_success_shape t valid ([], 0, true) fp h⟩
  · exact ⟨[], 0, swapPhase_success_shape t valid ([], 0, true) fp h⟩
  · exact ⟨[], 0, swapPhase_success_shape t valid ([], 0, true) fp h⟩
  · exact ⟨[], 0, swapPhase_success_shape t valid ([], 0, true) fp h⟩
  · exact ⟨[], 0, swapPhase_success_shape t valid ([], 0, true) fp h⟩
  · exact ⟨(batchLoopTxQ t valid (chosenColumn t valid) b hb (failAtOf fp) 0
        (mn : ℚ) (mx : ℚ) [] 0).1,
      (batchLoopTxQ t valid (chosenColumn t valid) b hb (failAtOf fp) 0
        (mn : ℚ) (mx : ℚ) [] 0).2.1,
      swapPhase_success_shape t valid
        (batchLoopTxQ t valid (chosenColumn t valid) b hb (failAtOf fp) 0
          (mn : ℚ) (mx : ℚ) [] 0) fp h⟩
  · exact ⟨(batchLoopTxQ t valid (chosenColumn t valid) b hb (failAtOf fp) 0
        (mn : ℚ) q [] 0).1,
      (batchLoopTxQ t valid (chosenColumn t valid) b hb (failAtOf fp) 0
        (mn : ℚ) q [] 0).2.1,
      swapPhase_success_shape t valid
        (batchLoopTxQ t valid (chosenColumn t valid) b hb (failAtOf fp) 0
          (mn : ℚ) q [] 0) fp h⟩
  · exact Bool.noConfusion h
  · exact ⟨[], 0, swapPhase_success_shape t valid ([], 0, true) fp h⟩
  · exact ⟨(batchLoopTxQ t valid (chosenColumn t valid) b hb (failAtOf fp) 0
        p (mx : ℚ) [] 0).1,
      (batchLoopTxQ t valid (chosenColumn t valid) b hb (failAtOf fp) 0
        p (mx : ℚ) [] 0).2.1,
      swapPhase_success_shape t valid
        (batchLoopTxQ t valid (chosenColumn t valid) b hb (failAtOf fp) 0
          p (mx : ℚ) [] 0) fp h⟩
  · exact ⟨(batchLoopTxQ t valid (chosenColumn t valid) b hb (failAtOf fp) 0
        p q [] 0).1,
      (batchLoopTxQ t valid (chosenColumn t valid) b hb (failAtOf fp) 0
        p q [] 0).2.1,
      swapPhase_success_shape t valid
        (batchLoopTxQ t valid (chosenColumn t valid) b hb (failAtOf fp) 0
          p q [] 0) fp h⟩
  · exact Bool.noConfusion h
  · exact ⟨[], 0, swapPhase_success_shape t valid ([], 0, true) fp h⟩
  · exact Bool.noConfusion h
  · exact Bool.noConfusion h
  · exact Bool.noConfusion h

/-- C1 (amended): when the drop set is non-empty — a rebuild actually
happens — a successful run leaves a table whose column list is exactly the
requested keep-list filtered to the columns that existed, in keep-list
order, and no shadow table remains; when the drop set is empty the run
succeeds without touching the table, so the original column order survives
(see the counterexample). -/
theorem C1_rebuilt_columns_follow_keep_list (t : Table) (columns_to_keep : List String)
    (b : Int) (hb : 0 < b)
    (hdrop : columns_to_drop (get_current_columns t) columns_to_keep ≠ [])
    (hsucc : (drop_unused_columns t columns_to_keep b hb FailPoint.noFail).success = true) :
    ∃ T : Table,
      (drop_unused_columns t columns_to_keep b hb FailPoint.noFail).db.orig = some T ∧
      get_current_columns T = valid_columns columns_to_keep (get_current_columns t) ∧
      (drop_unused_columns t columns_to_keep b hb FailPoint.noFail).db.shadow = none := by
  unfold drop_unused_columns at hsucc ⊢
  rw [if_neg hdrop] at hsucc ⊢
  rw [if_neg (by simp : ¬ (FailPoint.noFail = FailPoint.atCreate))] at hsucc ⊢
  by_cases hdefs : column_defs t.info (valid_columns columns_to_keep (get_current_columns t)) = []
  · rw [if_pos hdefs] at hsucc
    exact Bool.noConfusion hsucc
  · rw [if_neg hdefs] at hsucc ⊢
    by_cases hnd : (valid_columns columns_to_keep (get_current_columns t)).Nodup
    · rw [if_neg (not_not_intro hnd)] at hsucc ⊢
      rcases afterCreate_success_shape t _ b hb FailPoint.noFail hsucc with ⟨rows, n, heq⟩
      rw [heq]
      refine ⟨_, rfl, ?_, rfl⟩
      unfold get_current_columns
      apply shadowInfo_names
      intro c hc
      exact valid_columns_sub columns_to_keep (get_current_columns t) c hc
    · rw [if_pos hnd] at hsucc
      exact Bool.noConfusion hsucc

/-- The two-column table of the C1 counterexample. -/
def c1Table : Table :=
  { info := [{ name := "a", declType := "INTEGER", notnull := 0, dfltValue := none, pk := 1 },
             { name := "b", declType := "TEXT", notnull := 0, dfltValue := none, pk := 0 }],
    rows := [] }

/-- C1 as stated is false: with keep-list `[b, a]` over a table with columns
`[a, b]`, the drop set is empty, the run succeeds without rebuilding, and the
surviving column order is the table's original `[a, b]` — not the keep-list
order `[b, a]` the claim requires of every successful run. -/
theorem C1_counterexample :
    (drop_unused_columns c1Table ["b", "a"] 5000 (by decide) FailPoint.noFail).success = true ∧
    (drop_unused_columns c1Table ["b", "a"] 5000 (by decide) FailPoint.noFail).db.orig =
      some c1Table ∧
    get_current_columns c1Table ≠
      valid_columns ["b", "a"] (get_current_columns c1Table) := by
  refine ⟨by rfl, by rfl, by decide⟩

/-- The single-kept-column table of the C1 witness. -/
def c1wTable : Table :=
  { info := [{ name := "a", declType := "INTEGER", notnull := 0, dfltValue := none, pk := 1 },
             { name := "b", declType := "TEXT", notnull := 0, dfltValue := none, pk := 0 }],
    rows := [] }

theorem C1_witness :
    columns_to_drop (get_current_columns c1wTable) ["a"] ≠ [] ∧
    (drop_unused_columns c1wTable ["a"] 5000 (by decide) FailPoint.noFail).success = true ∧
    ∃ T : Table,
      (drop_unused_columns c1wTable ["a"] 5000 (by decide) FailPoint.noFail).db.orig = some T ∧
      get_current_columns T = valid_columns ["a"] (get_current_columns c1wTable) ∧
      (drop_unused_columns c1wTable ["a"] 5000 (by decide) FailPoint.noFail).db.shadow = none :=
  ⟨by decide, by rfl,
    C1_rebuilt_columns_follow_keep_list c1wTable ["a"] 5000 (by decide) (by decide) (by rfl)⟩


/-! ## Batch-size invariance -/

theorem swapPhase_noFail (t : Table) (valid : List String)
    (res : List (List Value) × Nat × Bool) (h : res.2.2 = true) :
    swapPhase t valid res FailPoint.noFail =
      { db := { orig := some { info := shadowInfo t.info valid, rows := res.1 }, shadow := none },
        success := true, rowsProcessed := res.2.1, err := none } := by
  unfold swapPhase
  rw [h]
  simp

theorem swapPhase_rollback (t : Table) (valid : List String)
    (res : List (List Value) × Nat × Bool) (fp : FailPoint) (h : res.2.2 = false) :
    swapPhase t valid res fp =
      { db := { orig := some t,
                shadow := some { info := shadowInfo t.info valid, rows := res.1 } },
        success := false, rowsProcessed := res.2.1, err := some MigrationError.injected } := by
  unfold swapPhase
  rw [h]
  simp

theorem swapPhase_atSwap (t : Table) (valid : List String)
    (res : List (List Value) × Nat × Bool) (h : res.2.2 = true) :
    swapPhase t valid res FailPoint.atSwap =
      { db := { orig := some t,
                shadow := some { info := shadowInfo t.info valid, rows := res.1 } },
        success := false, rowsProcessed := res.2.1, err := some MigrationError.injected } := by
  unfold swapPhase
  rw [h]
  simp

/-- Two tables hold the same data when their catalogs agree and their rows
are the same multiset (SQL tables carry no row order). -/
def TableEquiv (a b : Table) : Prop :=
  a.info = b.info ∧ List.Perm a.rows b.rows

/-- `TableEquiv` lifted to a possibly missing table. -/
def OptTableEquiv : Option Table → Option Table → Prop
  | none, none => True
  | some a, some b => TableEquiv a b
  | _, _ => False

theorem afterCreate_int_int (t : Table) (valid : List String) (b : Int) (hb : 0 < b)
    (fp : FailPoint) (mn mx : Int)
    (hmn : sqlMin (columnValues t (chosenColumn t valid)) = Value.int mn)
    (hmx : sqlMax (columnValues t (chosenColumn t valid)) = Value.int mx) :
    afterCreate t valid b hb fp =
      swapPhase t valid
        (batchLoopTx t valid (chosenColumn t valid) b hb (failAtOf fp) 0 mn mx [] 0) fp := by
  unfold afterCreate
  rw [hmn, hmx]
  show swapPhase t valid
      (batchLoopTxQ t valid (chosenColumn t valid) b hb (failAtOf fp) 0
        (mn : ℚ) (mx : ℚ) [] 0) fp = _
  rw [batchLoopTxQ_intCast]

theorem afterCreate_int_real (t : Table) (valid : List String) (b : Int) (hb : 0 < b)
    (fp : FailPoint) (mn : Int) (mx : ℚ)
    (hmn : sqlMin (columnValues t (chosenColumn t valid)) = Value.int mn)
    (hmx : sqlMax (columnValues t (chosenColumn t valid)) = Value.real mx) :
    afterCreate t valid b hb fp =
      swapPhase t valid
        (batchLoopTxQ t valid (chosenColumn t valid) b hb (failAtOf fp) 0
          (mn : ℚ) mx [] 0) fp := by
  unfold afterCreate
  rw [hmn, hmx]

theorem afterCreate_real_int (t : Table) (valid : List String) (b : Int) (hb : 0 < b)
    (fp : FailPoint) (mn : ℚ) (mx : Int)
    (hmn : sqlMin (columnValues t (chosenColumn t valid)) = Value.real mn)
    (hmx : sqlMax (columnValues t (chosenColumn t valid)) = Value.int mx) :
    afterCreate t valid b hb fp =
      swapPhase t valid
        (batchLoopTxQ t valid (chosenColumn t valid) b hb (failAtOf fp) 0
          mn (mx : ℚ) [] 0) fp := by
  unfold afterCreate
  rw [hmn, hmx]

theorem afterCreate_real_real (t : Table) (valid : List String) (b : Int) (hb : 0 < b)
    (fp : FailPoint) (mn mx : ℚ)
    (hmn : sqlMin (columnValues t (chosenColumn t valid)) = Value.real mn)
    (hmx : sqlMax (columnValues t (chosenColumn t valid)) = Value.real mx) :
    afterCreate t valid b hb fp =
      swapPhase t valid
        (batchLoopTxQ t valid (chosenColumn t valid) b hb (failAtOf fp) 0
          mn mx [] 0) fp := by
  unfold afterCreate
  rw [hmn, hmx]

theorem afterCreate_min_null (t : Table) (valid : List String) (b : Int) (hb : 0 < b)
    (fp : FailPoint)
    (hmn : sqlMin (columnValues t (chosenColumn t valid)) = Value.null) :
    afterCreate t valid b hb fp = swapPhase t valid ([], 0, true) fp := by
  unfold afterCreate
  rw [hmn]
  rcases hmx : sqlMax (columnValues t (chosenColumn t valid)) with _ | mx | q | s2 <;> rfl

theorem afterCreate_max_null (t : Table) (valid : List String) (b : Int) (hb : 0 < b)
    (fp : FailPoint)
    (hmx : sqlMax (columnValues t (chosenColumn t valid)) = Value.null) :
    afterCreate t valid b hb fp = swapPhase t valid ([], 0, true) fp := by
  unfold afterCreate
  rcases hmn : sqlMin (columnValues t (chosenColumn t valid)) with _ | mn | p | s1 <;>
    rw [hmx]

theorem afterCreate_nonint (t : Table) (valid : List String) (b : Int) (hb : 0 < b)
    (fp : FailPoint)
    (hnn1 : sqlMin (columnValues t (chosenColumn t valid)) ≠ Value.null)
    (hnn2 : sqlMax (columnValues t (chosenColumn t valid)) ≠ Value.null)
    (h : (∃ s, sqlMin (columnValues t (chosenColumn t valid)) = Value.text s) ∨
         (∃ s, sqlMax (columnValues t (chosenColumn t valid)) = Value.text s)) :
    afterCreate t valid b hb fp =
      { db := { orig := some t, shadow := some { info := shadowInfo t.info valid, rows := [] } },
        success := false, rowsProcessed := 0, err := some MigrationError.nonNumericBounds } := by
  unfold afterCreate
  rcases h with ⟨s1, h1⟩ | ⟨s2, h2⟩
  · rw [h1]
    rcases hmx : sqlMax (columnValues t (chosenColumn t valid)) with _ | mx | q | s2
    · exact absurd hmx hnn2
    · rfl
    · rfl
    · rfl
  · rw [h2]
    rcases hmn : sqlMin (columnValues t (chosenColumn t valid)) with _ | mn | p | s1
    · exact absurd hmn hnn1
    · rfl
    · rfl
    · rfl

theorem run_reaches_afterCreate (t : Table) (columns_to_keep : List String)
    (b : Int) (hb : 0 < b) (fp : FailPoint)
    (hdrop : columns_to_drop (get_current_columns t) columns_to_keep ≠ [])
    (hfp : ¬ fp = FailPoint.atCreate)
    (hdefs : ¬ column_defs t.info (valid_columns columns_to_keep (get_current_columns t)) = [])
    (hnd : (valid_columns columns_to_keep (get_current_columns t)).Nodup) :
    drop_unused_columns t columns_to_keep b hb fp =
      afterCreate t (valid_columns columns_to_keep (get_current_columns t)) b hb fp := by
  unfold drop_unused_columns
  rw [if_neg hdrop, if_neg hfp, if_neg hdefs, if_neg (not_not_intro hnd)]

theorem afterCreate_batch_invariance (t : Table) (valid : List String)
    (b1 b2 : Int) (hb1 : 0 < b1) (hb2 : 0 < b2)
    (hval : ∀ r ∈ t.rows, rowValue t.info r (chosenColumn t valid) = Value.null ∨
      ∃ i : Int, rowValue t.info r (chosenColumn t valid) = Value.int i) :
    (afterCreate t valid b1 hb1 FailPoint.noFail).success =
        (afterCreate t valid b2 hb2 FailPoint.noFail).success ∧
    (afterCreate t valid b1 hb1 FailPoint.noFail).err =
        (afterCreate t valid b2 hb2 FailPoint.noFail).err ∧
    (afterCreate t valid b1 hb1 FailPoint.noFail).rowsProcessed =
        (afterCreate t valid b2 hb2 FailPoint.noFail).rowsProcessed ∧
    OptTableEquiv (afterCreate t valid b1 hb1 FailPoint.noFail).db.orig
        (afterCreate t valid b2 hb2 FailPoint.noFail).db.orig ∧
    OptTableEquiv (afterCreate t valid b1 hb1 FailPoint.noFail).db.shadow
        (afterCreate t valid b2 hb2 FailPoint.noFail).db.shadow := by
  have hall : ∀ v ∈ columnValues t (chosenColumn t valid),
      v = Value.null ∨ ∃ i : Int, v = Value.int i := by
    intro v hv
    unfold columnValues at hv
    rcases List.mem_map.mp hv with ⟨r2, hr2, hveq⟩
    subst hveq
    exact hval r2 hr2
  rcases sqlMin_int_or_null (columnValues t (chosenColumn t valid)) hall with
    hmin | ⟨mn, hmin⟩
  · rw [afterCreate_min_null t valid b1 hb1 _ hmin, afterCreate_min_null t valid b2 hb2 _ hmin]
    exact ⟨rfl, rfl, rfl, ⟨rfl, List.Perm.refl _⟩, trivial⟩
  · rcases sqlMax_int_or_null (columnValues t (chosenColumn t valid)) hall with
      hmax | ⟨mx, hmax⟩
    · rw [afterCreate_max_null t valid b1 hb1 _ hmax, afterCreate_max_null t valid b2 hb2 _ hmax]
      exact ⟨rfl, rfl, rfl, ⟨rfl, List.Perm.refl _⟩, trivial⟩
    · have hl1 := batchLoop_perm t valid (chosenColumn t valid) b1 hb1 mn mx hval hmin hmax
      have hl2 := batchLoop_perm t valid (chosenColumn t valid) b2 hb2 mn mx hval hmin hmax
      rw [afterCreate_int_int t valid b1 hb1 _ mn mx hmin hmax,
        afterCreate_int_int t valid b2 hb2 _ mn mx hmin hmax]
      rw [show failAtOf FailPoint.noFail = none from rfl]
      rw [swapPhase_noFail t valid _ hl1.2.2, swapPhase_noFail t valid _ hl2.2.2]
      refine ⟨rfl, rfl, ?_, ⟨rfl, ?_⟩, trivial⟩
      · rw [hl1.2.1, hl2.2.1]
      · exact hl1.1.trans hl2.1.symm

/-- C3 (amended): for a fixed table and keep-list whose batching column
holds only NULLs and integers in every row, two runs that differ only in the
batch size are observably the same: same success flag, same error if any,
same reported rows processed, and the same final tables — equal catalogs with
the same multiset of rows (within one batch the copy preserves table order,
so different batch sizes may interleave row order differently, but the row
content is identical).  Without that hypothesis the claim is false: a REAL
batching value falling in the open unit gap between one window's upper bound
and the next window's lower bound is selected by no batch, so small batch
sizes silently drop rows that large batch sizes keep (see the
counterexample). -/
theorem C3_batch_size_invariance (t : Table) (columns_to_keep : List String)
    (b1 b2 : Int) (hb1 : 0 < b1) (hb2 : 0 < b2)
    (hval : ∀ r ∈ t.rows,
      rowValue t.info r
        (chosenColumn t (valid_columns columns_to_keep (get_current_columns t))) =
          Value.null ∨
      ∃ i : Int, rowValue t.info r
        (chosenColumn t (valid_columns columns_to_keep (get_current_columns t))) =
          Value.int i) :
    (drop_unused_columns t columns_to_keep b1 hb1 FailPoint.noFail).success =
        (drop_unused_columns t columns_to_keep b2 hb2 FailPoint.noFail).success ∧
    (drop_unused_columns t columns_to_keep b1 hb1 FailPoint.noFail).err =
        (drop_unused_columns t columns_to_keep b2 hb2 FailPoint.noFail).err ∧
    (drop_unused_columns t columns_to_keep b1 hb1 FailPoint.noFail).rowsProcessed =
        (drop_unused_columns t columns_to_keep b2 hb2 FailPoint.noFail).rowsProcessed ∧
    OptTableEquiv (drop_unused_columns t columns_to_keep b1 hb1 FailPoint.noFail).db.orig
        (drop_unused_columns t columns_to_keep b2 hb2 FailPoint.noFail).db.orig ∧
    OptTableEquiv (drop_unused_columns t columns_to_keep b1 hb1 FailPoint.noFail).db.shadow
        (drop_unused_columns t columns_to_keep b2 hb2 FailPoint.noFail).db.shadow := by
  unfold drop_unused_columns
  split_ifs <;> first
  | exact ⟨rfl, rfl, rfl, ⟨rfl, List.Perm.refl _⟩, trivial⟩
  | exact afterCreate_batch_invariance t _ b1 b2 hb1 hb2 hval

/-- The rational `9/2`, written as an explicit reduced fraction so that
comparisons against it evaluate by reduction. -/
def q92 : ℚ := ⟨9, 2, by decide, by decide⟩

theorem q92_eq : q92 = 9 / 2 := by
  unfold q92
  rw [Rat.mk'_eq_divInt, Rat.divInt_eq_div]
  norm_num

/-- The REAL-keyed table of the C3 counterexample: the batching column `v`
holds `0.0` and `4.5`. -/
def c3Table : Table :=
  { info := [{ name := "v", declType := "REAL", notnull := 0, dfltValue := none, pk := 1 },
             { name := "junk", declType := "TEXT", notnull := 0, dfltValue := none, pk := 0 }],
    rows := [[Value.real 0, Value.text "a"], [Value.real q92, Value.text "b"]] }

/-- C3 as stated (no restriction on the batching column's values) is false:
on `c3Table` the bounds are MIN `0.0` and MAX `4.5`.  With batch size 5 the
only window is `[0.0, 4.0]`, which misses the row at `4.5` — the run succeeds
having copied one row.  With batch size 100 the window `[0.0, 99.0]` catches
both rows.  Both runs succeed, yet they report different processed-row counts
and leave final tables with a different number of rows. -/
theorem C3_counterexample :
    (drop_unused_columns c3Table ["v"] 5 (by decide) FailPoint.noFail).success = true ∧
    (drop_unused_columns c3Table ["v"] 100 (by decide) FailPoint.noFail).success = true ∧
    (drop_unused_columns c3Table ["v"] 5 (by decide) FailPoint.noFail).rowsProcessed = 1 ∧
    (drop_unused_columns c3Table ["v"] 100 (by decide) FailPoint.noFail).rowsProcessed = 2 ∧
    ((drop_unused_columns c3Table ["v"] 5 (by decide) FailPoint.noFail).db.orig.map
      (fun T => T.rows.length)) = some 1 ∧
    ((drop_unused_columns c3Table ["v"] 100 (by decide) FailPoint.noFail).db.orig.map
      (fun T => T.rows.length)) = some 2 := by
  have hvalid : valid_columns ["v"] (get_current_columns c3Table) = ["v"] := by decide
  have hmn : sqlMin (columnValues c3Table (chosenColumn c3Table ["v"])) =
      Value.real 0 := by decide
  have hmx : sqlMax (columnValues c3Table (chosenColumn c3Table ["v"])) =
      Value.real q92 := by decide
  have hle0 : (0 : ℚ) ≤ q92 := by rw [q92_eq]; norm_num
  have hrun5 : ∀ h : (0 : Int) < 5,
      drop_unused_columns c3Table ["v"] 5 h FailPoint.noFail =
        { db := { orig := some { info := shadowInfo c3Table.info ["v"],
                                 rows := [[Value.real 0]] },
                  shadow := none },
          success := true, rowsProcessed := 1, err := none } := by
    intro h
    rw [run_reaches_afterCreate c3Table ["v"] 5 h FailPoint.noFail
      (by decide) (by decide) (by decide) (by decide)]
    rw [hvalid]
    rw [afterCreate_real_real c3Table ["v"] 5 h FailPoint.noFail 0 q92 hmn hmx]
    rw [show failAtOf FailPoint.noFail = none from rfl]
    rw [batchLoopTxQ_pos_none c3Table ["v"] (chosenColumn c3Table ["v"]) 5 h 0 0 q92 [] 0 hle0]
    rw [show ((0 : ℚ) + ((5 : Int) : ℚ) - 1) = 4 by push_cast; norm_num]
    rw [show ((0 : ℚ) + ((5 : Int) : ℚ)) = 5 by push_cast; norm_num]
    rw [batchLoopTxQ_neg c3Table ["v"] (chosenColumn c3Table ["v"]) 5 h none 1 5 q92 _ _
      (by rw [q92_eq]; norm_num)]
    rw [swapPhase_noFail c3Table ["v"] _ rfl]
    rfl
  have hrun100 : ∀ h : (0 : Int) < 100,
      drop_unused_columns c3Table ["v"] 100 h FailPoint.noFail =
        { db := { orig := some { info := shadowInfo c3Table.info ["v"],
                                 rows := [[Value.real 0], [Value.real q92]] },
                  shadow := none },
          success := true, rowsProcessed := 2, err := none } := by
    intro h
    rw [run_reaches_afterCreate c3Table ["v"] 100 h FailPoint.noFail
      (by decide) (by decide) (by decide) (by decide)]
    rw [hvalid]
    rw [afterCreate_real_real c3Table ["v"] 100 h FailPoint.noFail 0 q92 hmn hmx]
    rw [show failAtOf FailPoint.noFail = none from rfl]
    rw [batchLoopTxQ_pos_none c3Table ["v"] (chosenColumn c3Table ["v"]) 100 h 0 0 q92 [] 0 hle0]
    rw [show ((0 : ℚ) + ((100 : Int) : ℚ) - 1) = 99 by push_cast; norm_num]
    rw [show ((0 : ℚ) + ((100 : Int) : ℚ)) = 100 by push_cast; norm_num]
    rw [batchLoopTxQ_neg c3Table ["v"] (chosenColumn c3Table ["v"]) 100 h none 1 100 q92 _ _
      (by rw [q92_eq]; norm_num)]
    rw [swapPhase_noFail c3Table ["v"] _ rfl]
    rfl
  have h5s := hrun5 (by decide)
  have h100s := hrun100 (by decide)
  exact ⟨by rw [h5s], by rw [h100s], by rw [h5s], by rw [h100s],
    by rw [h5s]; rfl, by rw [h100s]; rfl⟩


/-! ## Failure containment -/

/-- C4: an exception is contained to its transaction.  An exception at the
shadow-table CREATE leaves the database exactly as it was.  An exception
inside the `k`-th batch transaction rolls back only that batch: the shadow
table keeps precisely the rows committed by the `k` earlier batches, the
original table is untouched, the run reports failure, and no cleanup or
resume of the shadow table happens.  An exception inside the final
drop-and-rename transaction rolls that transaction back: the original table
is still present and the shadow table holds every copied row. -/
theorem C4_exception_rolls_back_only_in_flight_transaction (t : Table)
    (columns_to_keep : List String) (b : Int) (hb : 0 < b) (mn mx : Int)
    (hdrop : columns_to_drop (get_current_columns t) columns_to_keep ≠ [])
    (hdefs : ¬ column_defs t.info (valid_columns columns_to_keep (get_current_columns t)) = [])
    (hnd : (valid_columns columns_to_keep (get_current_columns t)).Nodup)
    (hmn : sqlMin (columnValues t
      (chosenColumn t (valid_columns columns_to_keep (get_current_columns t)))) = Value.int mn)
    (hmx : sqlMax (columnValues t
      (chosenColumn t (valid_columns columns_to_keep (get_current_columns t)))) = Value.int mx) :
    (drop_unused_columns t columns_to_keep b hb FailPoint.atCreate =
      { db := { orig := some t, shadow := none }, success := false,
        rowsProcessed := 0, err := some MigrationError.injected }) ∧
    (∀ k : Nat, k < (batchBounds b hb mn mx).length →
      drop_unused_columns t columns_to_keep b hb (FailPoint.atBatch k) =
        { db := { orig := some t,
                  shadow := some
                    { info := shadowInfo t.info (valid_columns columns_to_keep (get_current_columns t)),
                      rows := boundsJoin t (valid_columns columns_to_keep (get_current_columns t))
                        (chosenColumn t (valid_columns columns_to_keep (get_current_columns t)))
                        ((batchBounds b hb mn mx).take k) } },
          success := false,
          rowsProcessed := (boundsJoin t (valid_columns columns_to_keep (get_current_columns t))
            (chosenColumn t (valid_columns columns_to_keep (get_current_columns t)))
            ((batchBounds b hb mn mx).take k)).length,
          err := some MigrationError.injected }) ∧
    (drop_unused_columns t columns_to_keep b hb FailPoint.atSwap =
      { db := { orig := some t,
                shadow := some
                  { info := shadowInfo t.info (valid_columns columns_to_keep (get_current_columns t)),
                    rows := boundsJoin t (valid_columns columns_to_keep (get_current_columns t))
                      (chosenColumn t (valid_columns columns_to_keep (get_current_columns t)))
                      (batchBounds b hb mn mx) } },
        success := false,
        rowsProcessed := (boundsJoin t (valid_columns columns_to_keep (get_current_columns t))
          (chosenColumn t (valid_columns columns_to_keep (get_current_columns t)))
          (batchBounds b hb mn mx)).length,
        err := some MigrationError.injected }) := by
  refine ⟨?_, ?_, ?_⟩
  · unfold drop_unused_columns
    rw [if_neg hdrop]
    rw [if_pos (show FailPoint.atCreate = FailPoint.atCreate from rfl)]
  · intro k hk
    rw [run_reaches_afterCreate t columns_to_keep b hb (FailPoint.atBatch k) hdrop
      (by simp) hdefs hnd]
    rw [afterCreate_int_int t _ b hb (FailPoint.atBatch k) mn mx hmn hmx]
    rw [show failAtOf (FailPoint.atBatch k) = some k from rfl]
    have hfail := batchLoopTx_fail t (valid_columns columns_to_keep (get_current_columns t))
      (chosenColumn t (valid_columns columns_to_keep (get_current_columns t))) b hb
      k mn mx 0 [] 0 hk
    simp only [Nat.zero_add, List.nil_append] at hfail
    rw [hfail]
    rw [swapPhase_rollback t _ _ _ rfl]
  · rw [run_reaches_afterCreate t columns_to_keep b hb FailPoint.atSwap hdrop
      (by simp) hdefs hnd]
    rw [afterCreate_int_int t _ b hb FailPoint.atSwap mn mx hmn hmx]
    rw [show failAtOf FailPoint.atSwap = none from rfl]
    rw [batchLoopTx_none t (valid_columns columns_to_keep (get_current_columns t))
      (chosenColumn t (valid_columns columns_to_keep (get_current_columns t))) b hb mn mx 0 [] 0]
    simp only [Nat.zero_add, List.nil_append]
    rw [swapPhase_atSwap t _ _ rfl]


/-! ## The batching column and the rendered column definitions -/

/-- Modelled from claim C8's wording (the refinement target): the first
primary-key column of the table that is present in the keep set, else the
first column of the keep set. -/
def firstPkInKeep (pkCols valid : List String) : Option String :=
  match pkCols.find? (fun c => decide (c ∈ valid)) with
  | some c => some c
  | none => valid.head?

/-- The composite-primary-key table of the C8 counterexample: column `a` is
the first primary-key column, `b` the second, `c` not part of the key. -/
def c8Table : Table :=
  { info := [{ name := "a", declType := "INTEGER", notnull := 0, dfltValue := none, pk := 1 },
             { name := "b", declType := "INTEGER", notnull := 0, dfltValue := none, pk := 2 },
             { name := "c", declType := "TEXT", notnull := 0, dfltValue := none, pk := 0 }],
    rows := [] }

/-- C8 as stated is false: with keep-list `[c, b]` the primary-key column `b`
is present in the keep set, so the claim requires `b` as batching column; the
code only tests whether the first primary-key column `a` is in the keep set,
finds it is not, and falls back to the first keep-set column `c`. -/
theorem C8_counterexample :
    batch_column (primary_key_cols c8Table.info)
        (valid_columns ["c", "b"] (get_current_columns c8Table)) = some "c" ∧
    firstPkInKeep (primary_key_cols c8Table.info)
        (valid_columns ["c", "b"] (get_current_columns c8Table)) = some "b" ∧
    (some "c" : Option String) ≠ some "b" := by
  refine ⟨by decide, by decide, by decide⟩

/-- C8 (amended): the batching column is the table's first primary-key
column when that very column is in the keep set; otherwise — even when a
later primary-key column is kept — it is the first column of the keep set.
When no primary-key column at all is kept, the code and the
first-primary-key-in-keep-set reading agree. -/
theorem batch_column_nil (valid : List String) :
    batch_column [] valid = valid.head? := rfl

theorem batch_column_cons (p : String) (ps valid : List String) :
    batch_column (p :: ps) valid = if p ∈ valid then some p else valid.head? := rfl

theorem firstPkInKeep_cons (p : String) (ps valid : List String) :
    firstPkInKeep (p :: ps) valid =
      match (p :: ps).find? (fun c => decide (c ∈ valid)) with
      | some c => some c
      | none => valid.head? := rfl

theorem C8_batch_column_choice (pkCols valid : List String) :
    (pkCols = [] → batch_column pkCols valid = valid.head?) ∧
    (∀ p : String, pkCols.head? = some p → p ∈ valid →
      batch_column pkCols valid = some p ∧ firstPkInKeep pkCols valid = some p) ∧
    (∀ p : String, pkCols.head? = some p → p ∉ valid →
      batch_column pkCols valid = valid.head?) ∧
    ((∀ q ∈ pkCols, q ∉ valid) →
      batch_column pkCols valid = firstPkInKeep pkCols valid) := by
  refine ⟨?_, ?_, ?_, ?_⟩
  · intro h
    rw [h, batch_column_nil]
  · intro p hp hpv
    cases pkCols with
    | nil => simp at hp
    | cons q qs =>
      simp only [List.head?_cons, Option.some.injEq] at hp
      subst hp
      rw [batch_column_cons, firstPkInKeep_cons]
      rw [List.find?_cons_of_pos _ (by simpa using hpv)]
      rw [if_pos hpv]
      exact ⟨rfl, rfl⟩
  · intro p hp hpv
    cases pkCols with
    | nil => simp at hp
    | cons q qs =>
      simp only [List.head?_cons, Option.some.injEq] at hp
      subst hp
      rw [batch_column_cons]
      rw [if_neg hpv]
  · intro hall
    cases pkCols with
    | nil => rfl
    | cons q qs =>
      have hnone : (q :: qs).find? (fun c => decide (c ∈ valid)) = none :=
        List.find?_eq_none.mpr (fun x hx => by simpa using hall x hx)
      rw [batch_column_cons, firstPkInKeep_cons, hnone]
      rw [if_neg (hall q (List.mem_cons_self q qs))]

/-- Modelled from claim C9's wording (the refinement target): the PRIMARY KEY
marker is emitted whenever the catalog marks the column as part of the
primary key, i.e. whenever its pk flag is positive. -/
def claimPkClause (r : ColumnInfo) : String :=
  if 0 < r.pk then "PRIMARY KEY" else ""

/-- The second column of a composite primary key, for the C9 counterexample. -/
def c9Col : ColumnInfo :=
  { name := "b", declType := "INTEGER", notnull := 0, dfltValue := none, pk := 2 }

/-- C9 as stated is false: the catalog marks `c9Col` as part of the primary
key (pk flag 2), so the claim requires the PRIMARY KEY marker in its rendered
definition, but the code emits the marker only when the pk flag is exactly 1
— the rendered definition is plain `b INTEGER`. -/
theorem C9_counterexample :
    0 < c9Col.pk ∧ claimPkClause c9Col = "PRIMARY KEY" ∧ pkClause c9Col = "" ∧
    renderColumnDef c9Col = "b INTEGER" := by
  refine ⟨by decide, by decide, by decide, by decide⟩

/-- C9 (amended): for a catalog row with a well-formed not-null flag, the
rendered column definition carries NOT NULL exactly when the flag is set,
DEFAULT with the catalog's default exactly when one exists, and PRIMARY KEY
exactly when the pk flag equals 1 — so type, nullability and default survive
for every kept column, while only the first column of a primary key keeps the
PRIMARY KEY marker; and every kept column's definition is rendered from its
own catalog row. -/
theorem C9_rendered_definition_preserves_metadata (r : ColumnInfo)
    (hn : r.notnull = 0 ∨ r.notnull = 1) :
    ((notNullClause r = "NOT NULL" ↔ r.notnull ≠ 0) ∧
      (notNullClause r = "" ↔ r.notnull = 0)) ∧
    ((r.dfltValue = none → defaultClause r = "") ∧
      (∀ v : String, r.dfltValue = some v → defaultClause r = "DEFAULT " ++ v)) ∧
    ((pkClause r = "PRIMARY KEY" ↔ r.pk = 1) ∧ (pkClause r = "" ↔ r.pk ≠ 1)) ∧
    (∀ (info : List ColumnInfo) (valid : List String) (c : String), c ∈ valid →
      c ∈ info.map (fun x => x.name) →
      ∃ rc : ColumnInfo, table_info_lookup info c = some rc ∧ rc.name = c ∧
        renderColumnDef rc ∈ column_defs info valid) := by
  refine ⟨⟨?_, ?_⟩, ⟨?_, ?_⟩, ⟨?_, ?_⟩, ?_⟩
  · unfold notNullClause
    rcases hn with h | h <;> rw [h] <;> decide
  · unfold notNullClause
    rcases hn with h | h <;> rw [h] <;> decide
  · intro h
    unfold defaultClause
    rw [h]
  · intro v h
    unfold defaultClause
    rw [h]
  · unfold pkClause
    by_cases h : r.pk = 1
    · rw [if_pos h]
      simp [h]
    · rw [if_neg h]
      constructor
      · intro hcontra
        exact absurd hcontra (by decide)
      · intro hcontra
        exact absurd hcontra h
  · unfold pkClause
    by_cases h : r.pk = 1
    · rw [if_pos h]
      constructor
      · intro hcontra
        exact absurd hcontra (by decide)
      · intro hcontra
        exact absurd h hcontra
    · rw [if_neg h]
      simp [h]
  · intro info valid c hcv hcn
    rcases table_info_lookup_of_mem info c hcn with ⟨rc, hrc, hname⟩
    refine ⟨rc, hrc, hname, ?_⟩
    unfold column_defs
    apply List.mem_filterMap.mpr
    exact ⟨c, hcv, by rw [hrc]; rfl⟩


/-! ## Concrete witnesses -/

/-- A one-row table with an integer primary-key column, used by witnesses. -/
def wIntTable : Table :=
  { info := [{ name := "id", declType := "INTEGER", notnull := 0, dfltValue := none, pk := 1 },
             { name := "note", declType := "TEXT", notnull := 0, dfltValue := none, pk := 0 }],
    rows := [[Value.int 3, Value.text "x"]] }

/-- A table whose single row has a NULL batching value next to an integer
row, used by the C10 witness. -/
def wNullTable : Table :=
  { info := [{ name := "id", declType := "INTEGER", notnull := 0, dfltValue := none, pk := 1 }],
    rows := [[Value.int 3], [Value.null]] }

theorem C2_witness :
    (0 : Int) < 5 ∧
    (∀ r ∈ wIntTable.rows, ∃ i : Int, rowValue wIntTable.info r "id" = Value.int i) ∧
    sqlMin (columnValues wIntTable "id") = Value.int 3 ∧
    sqlMax (columnValues wIntTable "id") = Value.int 3 ∧
    (List.Perm (batchLoopTx wIntTable ["id"] "id" 5 (by decide) none 0 3 3 [] 0).1
        (wIntTable.rows.map (projectRow wIntTable.info ["id"])) ∧
      (batchLoopTx wIntTable ["id"] "id" 5 (by decide) none 0 3 3 [] 0).2.1 =
        wIntTable.rows.length ∧
      (∀ v : Int, 3 ≤ v → v ≤ 3 →
        ∃! p : Int × Int, p ∈ batchBounds 5 (by decide) 3 3 ∧ p.1 ≤ v ∧ v ≤ p.2)) :=
  ⟨by decide,
    by
      intro r hr
      have hr2 : r ∈ [[Value.int 3, Value.text "x"]] := hr
      rw [List.mem_singleton] at hr2
      subst hr2
      exact ⟨3, rfl⟩,
    rfl, rfl,
    C2_every_row_copied_exactly_once wIntTable ["id"] "id" 5 (by decide) 3 3
      (by
        intro r hr
        have hr2 : r ∈ [[Value.int 3, Value.text "x"]] := hr
        rw [List.mem_singleton] at hr2
        subst hr2
        exact ⟨3, rfl⟩) rfl rfl⟩

theorem C3_witness :
    (0 : Int) < 1 ∧ (0 : Int) < 100 ∧
    (∀ r ∈ wIntTable.rows,
      rowValue wIntTable.info r
        (chosenColumn wIntTable (valid_columns ["id"] (get_current_columns wIntTable))) =
          Value.null ∨
      ∃ i : Int, rowValue wIntTable.info r
        (chosenColumn wIntTable (valid_columns ["id"] (get_current_columns wIntTable))) =
          Value.int i) ∧
    ((drop_unused_columns wIntTable ["id"] 1 (by decide) FailPoint.noFail).success =
        (drop_unused_columns wIntTable ["id"] 100 (by decide) FailPoint.noFail).success ∧
      (drop_unused_columns wIntTable ["id"] 1 (by decide) FailPoint.noFail).err =
        (drop_unused_columns wIntTable ["id"] 100 (by decide) FailPoint.noFail).err ∧
      (drop_unused_columns wIntTable ["id"] 1 (by decide) FailPoint.noFail).rowsProcessed =
        (drop_unused_columns wIntTable ["id"] 100 (by decide) FailPoint.noFail).rowsProcessed ∧
      OptTableEquiv (drop_unused_columns wIntTable ["id"] 1 (by decide) FailPoint.noFail).db.orig
        (drop_unused_columns wIntTable ["id"] 100 (by decide) FailPoint.noFail).db.orig ∧
      OptTableEquiv (drop_unused_columns wIntTable ["id"] 1 (by decide) FailPoint.noFail).db.shadow
        (drop_unused_columns wIntTable ["id"] 100 (by decide) FailPoint.noFail).db.shadow) := by
  have hval : ∀ r ∈ wIntTable.rows,
      rowValue wIntTable.info r
        (chosenColumn wIntTable (valid_columns ["id"] (get_current_columns wIntTable))) =
          Value.null ∨
      ∃ i : Int, rowValue wIntTable.info r
        (chosenColumn wIntTable (valid_columns ["id"] (get_current_columns wIntTable))) =
          Value.int i := by
    intro r hr
    have hr2 : r ∈ [[Value.int 3, Value.text "x"]] := hr
    rw [List.mem_singleton] at hr2
    subst hr2
    exact Or.inr ⟨3, rfl⟩
  exact ⟨by decide, by decide, hval,
    C3_batch_size_invariance wIntTable ["id"] 1 100 (by decide) (by decide) hval⟩

theorem C4_witness :
    columns_to_drop (get_current_columns wIntTable) ["id"] ≠ [] ∧
    (¬ column_defs wIntTable.info
      (valid_columns ["id"] (get_current_columns wIntTable)) = []) ∧
    (valid_columns ["id"] (get_current_columns wIntTable)).Nodup ∧
    sqlMin (columnValues wIntTable
      (chosenColumn wIntTable (valid_columns ["id"] (get_current_columns wIntTable)))) =
      Value.int 3 ∧
    sqlMax (columnValues wIntTable
      (chosenColumn wIntTable (valid_columns ["id"] (get_current_columns wIntTable)))) =
      Value.int 3 ∧
    drop_unused_columns wIntTable ["id"] 5 (by decide) FailPoint.atCreate =
      { db := { orig := some wIntTable, shadow := none }, success := false,
        rowsProcessed := 0, err := some MigrationError.injected } :=
  ⟨by decide, by decide, by decide, rfl, rfl,
    (C4_exception_rolls_back_only_in_flight_transaction wIntTable ["id"] 5 (by decide) 3 3
      (by decide) (by decide) (by decide) rfl rfl).1⟩

theorem C5_witness :
    (0 : Int) < 7 ∧
    ((∀ k : Nat, (batchBounds 7 (by decide) 0 9)[k]? =
        (if (0 : Int) + 7 * k ≤ 9 then some ((0 : Int) + 7 * k, (0 : Int) + 7 * k + 7 - 1)
         else none)) ∧
      (∀ k : Nat, k < (batchBounds 7 (by decide) 0 9).length ↔ (0 : Int) + 7 * k ≤ 9) ∧
      (∀ (t : Table) (valid : List String) (col : String),
        batchLoopTx t valid col 7 (by decide) none 0 0 9 [] 0 =
          (boundsJoin t valid col (batchBounds 7 (by decide) 0 9),
           (boundsJoin t valid col (batchBounds 7 (by decide) 0 9)).length, true))) :=
  ⟨by decide, C5_batch_loop_terminates 7 (by decide) 0 9⟩

theorem C6_witness :
    (∀ c : String, c ∈ valid_columns ["b", "c"] ["a", "b"] ↔
        c ∈ ["a", "b"] ∧ c ∈ ["b", "c"]) ∧
    (∀ c : String, c ∈ columns_to_drop ["a", "b"] ["b", "c"] ↔
        c ∈ ["a", "b"] ∧ c ∉ valid_columns ["b", "c"] ["a", "b"]) ∧
    (∀ c : String, ¬ (c ∈ valid_columns ["b", "c"] ["a", "b"] ∧
        c ∈ columns_to_drop ["a", "b"] ["b", "c"])) :=
  C6_keepset_dropset_reconciliation ["a", "b"] ["b", "c"]

/-- The one-column table of the C7 witness; an empty keep-list empties the
keep set while the drop set stays non-empty. -/
def w7Table : Table :=
  { info := [{ name := "x", declType := "TEXT", notnull := 0, dfltValue := none, pk := 0 }],
    rows := [] }

theorem C7_witness :
    valid_columns [] (get_current_columns w7Table) = [] ∧
    columns_to_drop (get_current_columns w7Table) [] ≠ [] ∧
    drop_unused_columns w7Table [] 5 (by decide) FailPoint.noFail =
      { db := { orig := some w7Table, shadow := none }, success := false,
        rowsProcessed := 0, err := some MigrationError.noKeepColumns } :=
  ⟨rfl, by decide,
    C7_empty_keepset_is_fatal w7Table [] 5 (by decide) rfl (by decide)⟩

theorem C8_witness :
    batch_column ["id"] ["id", "x"] = some "id" ∧
    firstPkInKeep ["id"] ["id", "x"] = some "id" :=
  (C8_batch_column_choice ["id"] ["id", "x"]).2.1 "id" rfl (by decide)

/-- The catalog row of the C9 witness. -/
def w9Col : ColumnInfo :=
  { name := "id", declType := "INTEGER", notnull := 1, dfltValue := some "0", pk := 1 }

theorem C9_witness :
    (w9Col.notnull = 0 ∨ w9Col.notnull = 1) ∧
    ((notNullClause w9Col = "NOT NULL" ↔ w9Col.notnull ≠ 0) ∧
      (notNullClause w9Col = "" ↔ w9Col.notnull = 0)) ∧
    ((pkClause w9Col = "PRIMARY KEY" ↔ w9Col.pk = 1) ∧
      (pkClause w9Col = "" ↔ w9Col.pk ≠ 1)) :=
  ⟨Or.inr rfl,
    (C9_rendered_definition_preserves_metadata w9Col (Or.inr rfl)).1,
    (C9_rendered_definition_preserves_metadata w9Col (Or.inr rfl)).2.2.1⟩

theorem C10_witness :
    rowValue wNullTable.info [Value.null] "id" = Value.null ∧
    [Value.null] ∉ batchSelect wNullTable "id" 0 5 ∧
    (∀ r ∈ wNullTable.rows, rowValue wNullTable.info r "id" = Value.null ∨
      ∃ i : Int, rowValue wNullTable.info r "id" = Value.int i) ∧
    sqlMin (columnValues wNullTable "id") = Value.int 3 ∧
    sqlMax (columnValues wNullTable "id") = Value.int 3 ∧
    ((0 : Int) < 5) ∧
    (List.Perm (batchLoopTx wNullTable ["id"] "id" 5 (by decide) none 0 3 3 [] 0).1
        ((wNullTable.rows.filter
          (fun r => !isNullV (rowValue wNullTable.info r "id"))).map
            (projectRow wNullTable.info ["id"])) ∧
      (batchLoopTx wNullTable ["id"] "id" 5 (by decide) none 0 3 3 [] 0).2.1 +
          (wNullTable.rows.filter
            (fun r => isNullV (rowValue wNullTable.info r "id"))).length =
        wNullTable.rows.length) := by
  have hval : ∀ r ∈ wNullTable.rows, rowValue wNullTable.info r "id" = Value.null ∨
      ∃ i : Int, rowValue wNullTable.info r "id" = Value.int i := by
    intro r hr
    have hr2 : r ∈ [[Value.int 3], [Value.null]] := hr
    rcases List.mem_cons.mp hr2 with h1 | h1
    · subst h1
      exact Or.inr ⟨3, rfl⟩
    · rw [List.mem_singleton] at h1
      subst h1
      exact Or.inl rfl
  exact ⟨rfl,
    (C10_null_batch_rows_are_lost wNullTable ["id"] "id").1 0 5 [Value.null] rfl,
    hval, rfl, rfl, by decide,
    (C10_null_batch_rows_are_lost wNullTable ["id"] "id").2 5 (by decide) 3 3 hval rfl rfl⟩

end DropColumns
